import Mathlib

/-! # A shallow embedding of the first-person-shooter simulation in `MyProject.cpp`

The program keeps its whole state in global variables and mutates them from the
GLUT callbacks (`display`, `keyboardDown`, `keyboardUp`, `passiveMouse`,
`mouseClick`).  Here the globals are the fields of one record, `World`, and each
callback is a function `World → World`.

Conventions of the embedding:

* `float` values are rationals and float arithmetic is exact; a float literal
  such as `0.016f` is the decimal it is written as.
* `int` values are integers (signed overflow is undefined behaviour in C++, so
  only the overflow-free runs are described).
* the fixed arrays `bullets`, `particles`, `enemies` are lists; a `for` loop over
  an array is a recursion over the list, in index order, threading the rest of
  the state.
* the C library (`sqrtf`, `sinf`, `cosf`, `atan2f`, `rand`) is not part of the
  program; it is a parameter, `Platform`.  `rand()` reads and advances a
  generator state, which is the field `seed` of the world.
* what GLUT hands to the program (the clock read by `nowSeconds`, the modifier
  mask returned by `glutGetModifiers`) is an argument of `display`.
* drawing and sound have no effect on the state and are left out.
-/

namespace FPS

/-! ## Data model -/

/-- The source's `struct Vec3`: three floats `x`, `y`, `z`. -/
structure Vec3 where
  x : ℚ
  y : ℚ
  z : ℚ
deriving DecidableEq

/-- The source's `struct Enemy`; its constant member `maxShootCooldown` is
`Enemy.maxShootCooldown` below. -/
structure Enemy where
  pos : Vec3
  dir : Vec3
  size : ℚ
  health : ℚ
  active : Bool
  flashTimer : ℚ
  moveSpeed : ℚ
  shootCooldown : ℚ
  canSeePlayer : Bool
  lastSeenTime : ℚ
  lastSeenPos : Vec3
  deathTimer : ℚ
deriving DecidableEq

/-- The constant member `maxShootCooldown = 2.0f` of `struct Enemy`. -/
def Enemy.maxShootCooldown : ℚ := 2

/-- The source's `struct Bullet`; `owner` is 0 for the player and 1 for an enemy. -/
structure Bullet where
  pos : Vec3
  dir : Vec3
  active : Bool
  life : ℚ
  owner : Int
deriving DecidableEq

/-- The source's `struct Particle`. -/
structure Particle where
  pos : Vec3
  vel : Vec3
  life : ℚ
  active : Bool
deriving DecidableEq

def MAX_BULLETS : Nat := 60
def MAX_PARTICLES : Nat := 100
def MAX_ENEMIES : Nat := 4

/-- The constant `GLUT_ACTIVE_SHIFT` of `<GL/glut.h>`. -/
def GLUT_ACTIVE_SHIFT : Nat := 1
/-- The constant `GLUT_LEFT_BUTTON` of `<GL/glut.h>`. -/
def GLUT_LEFT_BUTTON : Int := 0
/-- The constant `GLUT_DOWN` of `<GL/glut.h>`. -/
def GLUT_DOWN : Int := 0

/-- The index of a character in `keyDown[256]`. -/
def keyCode (c : Char) : Nat := c.toNat

/-- The C library routines the program calls.  `randValue s` is what `rand()`
returns when the generator is in state `s`, `randNext s` the state it leaves. -/
structure Platform where
  sqrtf : ℚ → ℚ
  sinf : ℚ → ℚ
  cosf : ℚ → ℚ
  atan2f : ℚ → ℚ → ℚ
  randValue : Nat → Nat
  randNext : Nat → Nat

/-- The global variables of the program that the simulation reads or writes. -/
structure World where
  WIN_W : Int
  WIN_H : Int
  cursorCaptured : Bool
  ignoreWarp : Bool
  lastTime : ℚ
  camPos : Vec3
  yaw : ℚ
  pitch : ℚ
  camFront : Vec3
  camUp : Vec3
  camRight : Vec3
  keyDown : Nat → Bool
  moveSpeed : ℚ
  mouseSensitivity : ℚ
  verticalVelocity : ℚ
  onGround : Bool
  score : Int
  bulletsLeft : Int
  playerHealth : Int
  reloading : Bool
  reloadTimer : ℚ
  justFired : Bool
  damageFlash : ℚ
  gameOver : Bool
  enemies : List Enemy
  bullets : List Bullet
  particles : List Particle
  seed : Nat

/-- The constant `reloadTime = 1.5f`. -/
def reloadTime : ℚ := 1.5

/-! ## Utilities -/

/-- A call of `rand()`: the value drawn and the world with the generator advanced. -/
def rand (M : Platform) (w : World) : Nat × World :=
  (M.randValue w.seed, { w with seed := M.randNext w.seed })

def vecNormalize (M : Platform) (v : Vec3) : Vec3 :=
  let l := M.sqrtf (v.x * v.x + v.y * v.y + v.z * v.z)
  if l > 1e-6 then { x := v.x / l, y := v.y / l, z := v.z / l } else v

def vecCross (a b : Vec3) : Vec3 :=
  { x := a.y * b.z - a.z * b.y, y := a.z * b.x - a.x * b.z, z := a.x * b.y - a.y * b.x }

def vecScale (a : Vec3) (s : ℚ) : Vec3 := { x := a.x * s, y := a.y * s, z := a.z * s }

def vecAdd (a b : Vec3) : Vec3 := { x := a.x + b.x, y := a.y + b.y, z := a.z + b.z }

def vecSub (a b : Vec3) : Vec3 := { x := a.x - b.x, y := a.y - b.y, z := a.z - b.z }

def updateCameraVectors (M : Platform) (w : World) : World :=
  let yr := w.yaw * 3.14159265 / 180
  let pr := w.pitch * 3.14159265 / 180
  let f : Vec3 := { x := M.cosf yr * M.cosf pr, y := M.sinf pr, z := M.sinf yr * M.cosf pr }
  let camFront := vecNormalize M f
  let camRight := vecNormalize M (vecCross camFront { x := 0, y := 1, z := 0 })
  let camUp := vecNormalize M (vecCross camRight camFront)
  { w with camFront := camFront, camRight := camRight, camUp := camUp }

def terrainHeight (M : Platform) (x z : ℚ) : ℚ :=
  2 + 1.5 * M.sinf (x * 0.05) * M.cosf (z * 0.07) + 0.8 * M.sinf ((x + z) * 0.1)

def canSee (M : Platform) (src dst : Vec3) : Bool :=
  let diff := vecSub dst src
  let distSq := diff.x * diff.x + diff.y * diff.y + diff.z * diff.z
  if distSq > 625 then false else
  let dy := dst.y - src.y
  let horizDist := M.sqrtf (diff.x * diff.x + diff.z * diff.z)
  if horizDist < 0.1 then true else
  let pitchToPlayer := |M.atan2f dy horizDist| * 180 / 3.14159
  decide (pitchToPlayer < 60)

/-! ## Object pools -/

/-- The index the loop `for (i = 0; i < MAX_BULLETS; i++) if (!bullets[i].active)`
stops at: the first slot that is not active, if there is one. -/
def firstFreeBullet : List Bullet → Option Nat
  | [] => none
  | b :: bs => if b.active = false then some 0 else (firstFreeBullet bs).map (· + 1)

/-- The same scan over the particle pool. -/
def firstFreeParticle : List Particle → Option Nat
  | [] => none
  | p :: ps => if p.active = false then some 0 else (firstFreeParticle ps).map (· + 1)

def fireBullet (w : World) : World :=
  if w.reloading = true ∨ w.bulletsLeft ≤ 0 ∨ w.gameOver = true then w else
  match firstFreeBullet w.bullets with
  | none => w
  | some i =>
    { w with
      bullets := w.bullets.set i
        { active := true, pos := w.camPos, dir := w.camFront, life := 3, owner := 0 }
      bulletsLeft := w.bulletsLeft - 1
      justFired := true }

def spawnParticle (M : Platform) (pos : Vec3) (w : World) : World :=
  match firstFreeParticle w.particles with
  | none => w
  | some i =>
    let (r1, w) := rand M w
    let (r2, w) := rand M w
    let (r3, w) := rand M w
    let (r4, w) := rand M w
    { w with
      particles := w.particles.set i
        { active := true
          pos := pos
          vel := { x := (((r1 % 100 : Nat) : ℚ) / 50 - 1) * 1.5
                   y := (((r2 % 100 : Nat) : ℚ) / 50 + 0.5) * 1.5
                   z := (((r3 % 100 : Nat) : ℚ) / 50 - 1) * 1.5 }
          life := 0.8 + ((r4 % 100 : Nat) : ℚ) / 200 } }

/-! ## Start-up -/

/-- The body of the loop of `initEnemies` for one slot. -/
def initEnemy (M : Platform) (e : Enemy) (w : World) : Enemy × World :=
  let (r1, w) := rand M w
  let (r2, w) := rand M w
  let px : ℚ := (((r1 % 40 : Nat) : Int) - 20 : Int) * 0.8
  let pz : ℚ := (((r2 % 40 : Nat) : Int) - 20 : Int) * 0.8
  let (r3, w) := rand M w
  let ang : ℚ := ((r3 % 360 : Nat) : ℚ) * 3.14159 / 180
  let (r4, w) := rand M w
  ({ e with
     active := true
     pos := { x := px, y := terrainHeight M px pz + 1.6, z := pz }
     dir := { x := M.cosf ang, y := 0, z := M.sinf ang }
     health := 100
     size := 0.4
     flashTimer := 0
     moveSpeed := 0.8
     shootCooldown := ((r4 % 1000 : Nat) : ℚ) / 500
     canSeePlayer := false
     lastSeenTime := 0
     deathTimer := 0 }, w)

def initEnemiesLoop (M : Platform) : List Enemy → World → List Enemy × World
  | [], w => ([], w)
  | e :: es, w =>
    let (e1, w1) := initEnemy M e w
    let (es1, w2) := initEnemiesLoop M es w1
    (e1 :: es1, w2)

def initEnemies (M : Platform) (w : World) : World :=
  let (es, w1) := initEnemiesLoop M w.enemies w
  { w1 with enemies := es }

/-- A zero-initialised `Vec3`. -/
def Vec3.zero : Vec3 := { x := 0, y := 0, z := 0 }

/-- The globals as their initialisers leave them before `main` runs; the arrays
are zero-initialised. -/
def initialGlobals (seed : Nat) : World :=
  { WIN_W := 1024, WIN_H := 768, cursorCaptured := true, ignoreWarp := false
    lastTime := 0
    camPos := { x := 0, y := 1.6, z := 3 }
    yaw := -90, pitch := 0
    camFront := { x := 0, y := 0, z := -1 }
    camUp := { x := 0, y := 1, z := 0 }
    camRight := { x := 1, y := 0, z := 0 }
    keyDown := fun _ => false
    moveSpeed := 5, mouseSensitivity := 0.12
    verticalVelocity := 0, onGround := true
    score := 0, bulletsLeft := 30, playerHealth := 100
    reloading := false, reloadTimer := 0
    justFired := false, damageFlash := 0, gameOver := false
    enemies := List.replicate MAX_ENEMIES
      { pos := Vec3.zero, dir := Vec3.zero, size := 0, health := 0, active := false
        flashTimer := 0, moveSpeed := 0, shootCooldown := 0, canSeePlayer := false
        lastSeenTime := 0, lastSeenPos := Vec3.zero, deathTimer := 0 }
    bullets := List.replicate MAX_BULLETS
      { pos := Vec3.zero, dir := Vec3.zero, active := false, life := 0, owner := 0 }
    particles := List.replicate MAX_PARTICLES
      { pos := Vec3.zero, vel := Vec3.zero, life := 0, active := false }
    seed := seed }

/-- The state in which `main` enters `glutMainLoop`: `srand` leaves the generator
in state `seed`, then `updateCameraVectors`, `initEnemies` and `initEnvironment`
run, `ignoreWarp` is set when the cursor is captured, and `lastTime` is set from
the clock (`t0`).  `initEnvironment` only places the rocks, which the simulation
never reads; of its effects only the generator state it leaves, `seedAfterRocks`,
is kept. -/
def boot (M : Platform) (seed seedAfterRocks : Nat) (t0 : ℚ) : World :=
  let w := updateCameraVectors M (initialGlobals seed)
  let w := initEnemies M w
  let w : World := { w with seed := seedAfterRocks }
  let w : World := if w.cursorCaptured = true then { w with ignoreWarp := true } else w
  { w with lastTime := t0 }

/-! ## Input callbacks -/

def passiveMouse (M : Platform) (x y : Int) (w : World) : World :=
  if w.cursorCaptured = false ∨ w.gameOver = true then w else
  if w.ignoreWarp = true then { w with ignoreWarp := false } else
  let cx := Int.tdiv w.WIN_W 2
  let cy := Int.tdiv w.WIN_H 2
  let dx : ℚ := ((x - cx : Int) : ℚ)
  let dy : ℚ := ((cy - y : Int) : ℚ)
  let w : World := { w with
    yaw := w.yaw + dx * w.mouseSensitivity
    pitch := w.pitch + dy * w.mouseSensitivity }
  let w : World := if w.pitch > 89 then { w with pitch := 89 } else w
  let w : World := if w.pitch < -89 then { w with pitch := -89 } else w
  let w := updateCameraVectors M w
  { w with ignoreWarp := true }

def keyboardDown (key : Nat) (w : World) : World :=
  let w : World := { w with keyDown := fun k => if k = key then true else w.keyDown k }
  let w :=
    if key = 27 then
      let w : World := { w with cursorCaptured := !w.cursorCaptured }
      if w.cursorCaptured = true then { w with ignoreWarp := true } else w
    else w
  if key = keyCode 'r' ∨ key = keyCode 'R' then
    if w.reloading = false ∧ w.bulletsLeft < 30 ∧ w.gameOver = false then
      { w with reloading := true, reloadTimer := reloadTime }
    else w
  else w

def keyboardUp (key : Nat) (w : World) : World :=
  { w with keyDown := fun k => if k = key then false else w.keyDown k }

def mouseClick (button state : Int) (w : World) : World :=
  if button = GLUT_LEFT_BUTTON ∧ state = GLUT_DOWN then fireBullet w else w

def reshape (width height : Int) (w : World) : World :=
  { w with WIN_W := width, WIN_H := height }

def specialDown (w : World) : World := w

/-! ## The simulation block of `display`, pass by pass -/

/-- The `// Camera movement` part: the four direction keys, then the run modifier. -/
def cameraMovement (dt : ℚ) (mod : Nat) (w : World) : World :=
  let speed := w.moveSpeed * dt
  let w : World := if w.keyDown (keyCode 'w') = true ∨ w.keyDown (keyCode 'W') = true
    then { w with camPos := vecAdd w.camPos (vecScale w.camFront speed) } else w
  let w : World := if w.keyDown (keyCode 's') = true ∨ w.keyDown (keyCode 'S') = true
    then { w with camPos := vecSub w.camPos (vecScale w.camFront speed) } else w
  let w : World := if w.keyDown (keyCode 'a') = true ∨ w.keyDown (keyCode 'A') = true
    then { w with camPos := vecSub w.camPos (vecScale w.camRight speed) } else w
  let w : World := if w.keyDown (keyCode 'd') = true ∨ w.keyDown (keyCode 'D') = true
    then { w with camPos := vecAdd w.camPos (vecScale w.camRight speed) } else w
  { w with moveSpeed := if Nat.land mod GLUT_ACTIVE_SHIFT ≠ 0 then 9 else 5 }

/-- The `// Jump & gravity` part. -/
def jumpGravity (M : Platform) (dt : ℚ) (w : World) : World :=
  let w : World := if w.keyDown (keyCode ' ') = true ∧ w.onGround = true
    then { w with verticalVelocity := 5, onGround := false } else w
  let w : World := { w with verticalVelocity := w.verticalVelocity - 9.81 * dt }
  let w : World := { w with camPos := { w.camPos with y := w.camPos.y + w.verticalVelocity * dt } }
  let groundY := terrainHeight M w.camPos.x w.camPos.z + 1.6
  if w.camPos.y ≤ groundY then
    { w with camPos := { w.camPos with y := groundY }, verticalVelocity := 0, onGround := true }
  else w

/-- The `// Reload` part. -/
def reloadStep (dt : ℚ) (w : World) : World :=
  if w.reloading = true then
    let w : World := { w with reloadTimer := w.reloadTimer - dt }
    if w.reloadTimer ≤ 0 then { w with reloading := false, bulletsLeft := 30 } else w
  else w

/-- The body of the `// Bullets` loop. -/
def bulletStep (dt : ℚ) (b : Bullet) : Bullet :=
  if b.active = true then
    let b : Bullet := { b with pos := vecAdd b.pos (vecScale b.dir (15 * dt)) }
    let b : Bullet := { b with life := b.life - dt }
    if b.life ≤ 0 then { b with active := false } else b
  else b

/-- The body of the `// Particles` loop. -/
def particleStep (dt : ℚ) (p : Particle) : Particle :=
  if p.active = true then
    let p : Particle := { p with pos := vecAdd p.pos (vecScale p.vel dt) }
    let p : Particle := { p with vel := { p.vel with y := p.vel.y - 2 * dt } }
    let p : Particle := { p with life := p.life - dt }
    if p.life ≤ 0 then { p with active := false } else p
  else p

/-- The `// Turn/move toward last seen` part, else a random new heading. -/
def enemyTurn (M : Platform) (t : ℚ) (e : Enemy) (w : World) : Enemy × World :=
  if t - e.lastSeenTime < 3 then
    let toTarget := { vecSub e.lastSeenPos e.pos with y := 0 }
    let len := M.sqrtf (toTarget.x * toTarget.x + toTarget.z * toTarget.z)
    if len > 0.1 then
      let tx := toTarget.x / len
      let tz := toTarget.z / len
      let d : Vec3 := { e.dir with
        x := e.dir.x * 0.94 + tx * 0.06
        z := e.dir.z * 0.94 + tz * 0.06 }
      ({ e with dir := vecNormalize M d }, w)
    else (e, w)
  else
    let (r, w) := rand M w
    if r % 200 = 0 then
      let (r2, w) := rand M w
      let ang : ℚ := ((r2 % 360 : Nat) : ℚ) * 3.14159 / 180
      ({ e with dir := { x := M.cosf ang, y := 0, z := M.sinf ang } }, w)
    else (e, w)

/-- The `// Move (sync to terrain)` part. -/
def enemyMove (M : Platform) (dt : ℚ) (e : Enemy) (w : World) : Enemy × World :=
  let (r, w) := rand M w
  if r % 100 < 20 then
    let nx := e.pos.x + e.dir.x * e.moveSpeed * dt * 0.8
    let nz := e.pos.z + e.dir.z * e.moveSpeed * dt * 0.8
    let ny := terrainHeight M nx nz + 1.6
    if |ny - e.pos.y| < 1 then ({ e with pos := { x := nx, y := ny, z := nz } }, w)
    else (e, w)
  else (e, w)

/-- The `// Shooting` part: the cooldown, then a bullet from the first free slot. -/
def enemyShoot (M : Platform) (dt : ℚ) (e : Enemy) (w : World) : Enemy × World :=
  let e : Enemy := { e with shootCooldown := e.shootCooldown - dt }
  if e.canSeePlayer = true ∧ e.shootCooldown ≤ 0 then
    match firstFreeBullet w.bullets with
    | none => (e, w)
    | some bi =>
      let bpos : Vec3 := { e.pos with y := e.pos.y + 1.4 }
      let b : Bullet :=
        { active := true, pos := bpos, dir := vecNormalize M (vecSub w.camPos bpos)
          life := 3, owner := 1 }
      let w : World := { w with bullets := w.bullets.set bi b }
      let (r, w) := rand M w
      let e : Enemy := { e with shootCooldown :=
        Enemy.maxShootCooldown * (0.7 + ((r % 60 : Nat) : ℚ) / 100) }
      let muzzle : Vec3 :=
        { x := e.pos.x + e.dir.x * 0.4, y := e.pos.y + 1.4, z := e.pos.z + e.dir.z * 0.4 }
      (e, spawnParticle M muzzle w)
  else (e, w)

/-- The head of the `// Enemies AI & Update` loop body: the flash countdown and
`// Vision`. -/
def enemySense (M : Platform) (t dt : ℚ) (camPos : Vec3) (e : Enemy) : Enemy :=
  let e : Enemy := if e.flashTimer > 0 then { e with flashTimer := e.flashTimer - dt } else e
  let e : Enemy := { e with canSeePlayer := canSee M e.pos camPos }
  if e.canSeePlayer = true then { e with lastSeenTime := t, lastSeenPos := camPos } else e

/-- The body of the `// Enemies AI & Update` loop for one enemy. -/
def enemyUpdate (M : Platform) (t dt : ℚ) (e : Enemy) (w : World) : Enemy × World :=
  if e.active = false ∨ e.deathTimer > 0 then (e, w) else
  let e : Enemy := enemySense M t dt w.camPos e
  let (e, w) := enemyTurn M t e w
  let (e, w) := enemyMove M dt e w
  enemyShoot M dt e w

def enemiesLoop (M : Platform) (t dt : ℚ) : List Enemy → World → List Enemy × World
  | [], w => ([], w)
  | e :: es, w =>
    let (e1, w1) := enemyUpdate M t dt e w
    let (es1, w2) := enemiesLoop M t dt es w1
    (e1 :: es1, w2)

def enemiesPass (M : Platform) (t dt : ℚ) (w : World) : World :=
  let (es, w1) := enemiesLoop M t dt w.enemies w
  { w1 with enemies := es }

/-- The body of the `// Handle enemy death & respawn` loop for one enemy. -/
def respawnEnemy (M : Platform) (dt : ℚ) (e : Enemy) (w : World) : Enemy × World :=
  if e.deathTimer > 0 then
    let e : Enemy := { e with deathTimer := e.deathTimer - dt }
    if e.deathTimer ≤ 0 then
      let (r1, w) := rand M w
      let px : ℚ := (((r1 % 40 : Nat) : Int) - 20 : Int) * 0.8
      let (r2, w) := rand M w
      let pz : ℚ := (((r2 % 40 : Nat) : Int) - 20 : Int) * 0.8
      let (r3, w) := rand M w
      ({ e with
         pos := { x := px, y := terrainHeight M px pz + 1.6, z := pz }
         health := 100
         active := true
         flashTimer := 0
         shootCooldown := ((r3 % 1000 : Nat) : ℚ) / 500 }, w)
    else (e, w)
  else (e, w)

def respawnLoop (M : Platform) (dt : ℚ) : List Enemy → World → List Enemy × World
  | [], w => ([], w)
  | e :: es, w =>
    let (e1, w1) := respawnEnemy M dt e w
    let (es1, w2) := respawnLoop M dt es w1
    (e1 :: es1, w2)

def respawnPass (M : Platform) (dt : ℚ) (w : World) : World :=
  let (es, w1) := respawnLoop M dt w.enemies w
  { w1 with enemies := es }

/-- The test of `// Enemy bullet → player`: the bullet is inside the player's
cylinder (horizontal distance below 0.4, vertical offset below 0.8). -/
def bulletInPlayer (M : Platform) (camPos : Vec3) (b : Bullet) : Bool :=
  let toPlayer := vecSub camPos b.pos
  let distHoriz := M.sqrtf (toPlayer.x * toPlayer.x + toPlayer.z * toPlayer.z)
  decide (distHoriz < 0.4 ∧ |toPlayer.y| < 0.8)

/-- The `// Enemy bullet → player` part for one active bullet. -/
def hitPlayer (M : Platform) (b : Bullet) (w : World) : Bullet × World :=
  if b.owner = 1 then
    if bulletInPlayer M w.camPos b = true then
      let b : Bullet := { b with active := false }
      let w : World := { w with playerHealth := w.playerHealth - 25, damageFlash := 0.4 }
      if w.playerHealth ≤ 0 ∧ w.gameOver = false then
        (b, { w with playerHealth := 0, gameOver := true })
      else (b, w)
    else (b, w)
  else (b, w)

/-- The test of `// Player bullet → enemy`: the bullet is inside the enemy's
cylinder (horizontal distance below `size`, vertical offset below 1.2). -/
def bulletInEnemy (M : Platform) (e : Enemy) (b : Bullet) : Bool :=
  let diff := vecSub b.pos e.pos
  let distHoriz := M.sqrtf (diff.x * diff.x + diff.z * diff.z)
  decide (distHoriz < e.size ∧ |diff.y| < 1.2)

/-- The body of the loop over `j` in `// Player bullet → enemy`: bullet `b`
against enemy `e`. -/
def hitEnemy (M : Platform) (e : Enemy) (b : Bullet) (w : World) : Enemy × Bullet × World :=
  if e.active = false ∨ e.deathTimer > 0 then (e, b, w) else
  if bulletInEnemy M e b = true then
    let b : Bullet := { b with active := false }
    let e : Enemy := { e with flashTimer := 0.25 }
    let w : World := spawnParticle M e.pos w
    let e : Enemy := { e with health := e.health - 34 }
    if e.health ≤ 0 ∧ e.deathTimer ≤ 0 then
      ({ e with deathTimer := 2 }, b, { w with score := w.score + 100 })
    else (e, b, w)
  else (e, b, w)

/-- The loop over `j`: bullet `b` against every enemy, in index order. -/
def hitEnemies (M : Platform) : List Enemy → Bullet → World → List Enemy × Bullet × World
  | [], b, w => ([], b, w)
  | e :: es, b, w =>
    let (e1, b1, w1) := hitEnemy M e b w
    let (es1, b2, w2) := hitEnemies M es b1 w1
    (e1 :: es1, b2, w2)

/-- The body of the `// Collisions` loop for one bullet. -/
def collideBullet (M : Platform) (b : Bullet) (w : World) : Bullet × World :=
  if b.active = false then (b, w) else
  let (b, w) := hitPlayer M b w
  if b.owner = 0 then
    let (es, b1, w1) := hitEnemies M w.enemies b w
    (b1, { w1 with enemies := es })
  else (b, w)

def collideLoop (M : Platform) : List Bullet → World → List Bullet × World
  | [], w => ([], w)
  | b :: bs, w =>
    let (b1, w1) := collideBullet M b w
    let (bs1, w2) := collideLoop M bs w1
    (b1 :: bs1, w2)

/-- The `// Collisions` loop. -/
def collisions (M : Platform) (w : World) : World :=
  let (bs, w1) := collideLoop M w.bullets w
  { w1 with bullets := bs }

/-- The block guarded by `if (!gameOver)` in `display`. -/
def simulate (M : Platform) (t dt : ℚ) (mod : Nat) (w : World) : World :=
  let w := cameraMovement dt mod w
  let w := jumpGravity M dt w
  let w := reloadStep dt w
  let w : World := { w with bullets := w.bullets.map (bulletStep dt) }
  let w : World := { w with particles := w.particles.map (particleStep dt) }
  let w := enemiesPass M t dt w
  let w := respawnPass M dt w
  collisions M w

/-- The write of `drawGun()` to the globals: the muzzle flash consumes `justFired`.
Its static local `lastFireTime` is read by the drawing only and is left out. -/
def drawGun (w : World) : World :=
  if w.justFired = true then { w with justFired := false } else w

/-- What `display` does to the state once `t` and `dt` are fixed: the simulation
block unless the game is over, then the writes of the render part
(`updateCameraVectors()`, the fading of `damageFlash`, and `drawGun()` unless the
game is over). -/
def frame (M : Platform) (t dt : ℚ) (mod : Nat) (w : World) : World :=
  let w : World := if w.gameOver = false then simulate M t dt mod w else w
  let w := updateCameraVectors M w
  let w : World := if w.damageFlash > 0 then { w with damageFlash := w.damageFlash - dt } else w
  if w.gameOver = false then drawGun w else w

/-- The callback `display()`: `t` is the clock and `mod` the modifier mask at the call. -/
def display (M : Platform) (t : ℚ) (mod : Nat) (w : World) : World :=
  let dt := if w.lastTime = 0 then 0.016 else t - w.lastTime
  frame M t dt mod { w with lastTime := t }

/-! ## Runs of the program -/

/-- One callback invocation by the GLUT main loop. -/
inductive Event where
  | display (t : ℚ) (mod : Nat)
  | passiveMouse (x y : Int)
  | keyboardDown (key : Nat)
  | keyboardUp (key : Nat)
  | mouseClick (button state : Int)
  | reshape (width height : Int)
  | specialDown

def Event.apply (M : Platform) : Event → World → World
  | .display t mod, w => FPS.display M t mod w
  | .passiveMouse x y, w => FPS.passiveMouse M x y w
  | .keyboardDown key, w => FPS.keyboardDown key w
  | .keyboardUp key, w => FPS.keyboardUp key w
  | .mouseClick button state, w => FPS.mouseClick button state w
  | .reshape width height, w => FPS.reshape width height w
  | .specialDown, w => FPS.specialDown w

/-- The state after the callbacks of `evs` have run in order from `w`. -/
def run (M : Platform) : List Event → World → World
  | [], w => w
  | ev :: evs, w => run M evs (ev.apply M w)

/-- One step of a run in a wider sense: a callback, a direct call of `fireBullet`,
or a frame with an arbitrary `dt`. -/
inductive Action where
  | callback (ev : Event)
  | fire
  | frame (t dt : ℚ) (mod : Nat)

def Action.apply (M : Platform) : Action → World → World
  | .callback ev, w => ev.apply M w
  | .fire, w => fireBullet w
  | .frame t dt mod, w => FPS.frame M t dt mod w

/-- The state after the actions of `acts` have run in order from `w`. -/
def perform (M : Platform) : List Action → World → World
  | [], w => w
  | a :: acts, w => perform M acts (a.apply M w)

/-- The frames of `fs`, each a clock value, a `dt` and a modifier mask, run in
order from `w`. -/
def runFrames (M : Platform) : List (ℚ × ℚ × Nat) → World → World
  | [], w => w
  | f :: fs, w => runFrames M fs (frame M f.1 f.2.1 f.2.2 w)

/-- The game is not over when any of the frames of `fs` starts. -/
def notOverDuring (M : Platform) : List (ℚ × ℚ × Nat) → World → Prop
  | [], _ => True
  | f :: fs, w => w.gameOver = false ∧ notOverDuring M fs (frame M f.1 f.2.1 f.2.2 w)

/-- The simulated time of the frames of `fs`: the sum of their `dt`. -/
def elapsed : List (ℚ × ℚ × Nat) → ℚ
  | [] => 0
  | f :: fs => f.2.1 + elapsed fs

/-! ## Groups of fields

The passes of a frame each write a few of the globals; these tuples name the
groups that the statements below follow through a frame. -/

/-- The player's health, the game-over flag and the score. -/
def vitals (w : World) : Int × Bool × Int := (w.playerHealth, w.gameOver, w.score)

/-- The magazine and the reload countdown. -/
def reloadState (w : World) : Bool × ℚ × Int := (w.reloading, w.reloadTimer, w.bulletsLeft)

/-- The player's position, vertical velocity and grounded flag. -/
def kinematics (w : World) : Vec3 × ℚ × Bool := (w.camPos, w.verticalVelocity, w.onGround)

/-! ## Views of the collision pass

`hitEnemy` threads the bullet and the world, but what it does to the enemy record
depends on the enemy and the bullet's position alone.  The theorems relate the
loops above to these views. -/

/-- The enemy record that `hitEnemy` returns. -/
def struck (M : Platform) (e : Enemy) (b : Bullet) : Enemy :=
  if e.active = false ∨ e.deathTimer > 0 then e else
  if bulletInEnemy M e b = true then
    if e.health - 34 ≤ 0 ∧ e.deathTimer ≤ 0 then
      { e with flashTimer := 0.25, health := e.health - 34, deathTimer := 2 }
    else { e with flashTimer := 0.25, health := e.health - 34 }
  else e

/-- The iteration of bullet `b` against enemy `e` registers a hit: the enemy is
active with no death countdown running and the bullet is inside its cylinder. -/
def takesHit (M : Platform) (e : Enemy) (b : Bullet) : Bool :=
  decide (¬(e.active = false ∨ e.deathTimer > 0)) && bulletInEnemy M e b

/-- What one iteration of the `// Collisions` loop, for bullet `b`, does to an enemy
record: only an active player bullet is tested against the enemies. -/
def strike (M : Platform) (b : Bullet) (e : Enemy) : Enemy :=
  if b.active = true ∧ b.owner = 0 then struck M e b else e

/-- The number of roster positions at which the enemy had no death countdown
running in `before` and has one running in `after`. -/
def kills : List Enemy → List Enemy → Nat
  | e :: es, e1 :: es1 => (if e.deathTimer ≤ 0 ∧ 0 < e1.deathTimer then 1 else 0) + kills es es1
  | _, _ => 0

/-- What a frame keeps true of an enemy's health: at most 100, and below 0 only
down to -34 and only while the death countdown runs. -/
def healthOk (e : Enemy) : Prop :=
  e.health ≤ 100 ∧ (0 ≤ e.health ∨ (-34 ≤ e.health ∧ 0 < e.deathTimer))

/-- The enemy stands at eye height on the terrain. -/
def terrainSynced (M : Platform) (e : Enemy) : Prop :=
  e.pos.y = terrainHeight M e.pos.x e.pos.z + 1.6

/-- The perception rule in the words of the specification, to be compared with
`canSee`: the squared distance is at most 625 and the vertical look angle, in
degrees, is within 60 of horizontal. -/
def canSeeSpec (M : Platform) (src dst : Vec3) : Prop :=
  let diff := vecSub dst src
  diff.x * diff.x + diff.y * diff.y + diff.z * diff.z ≤ 625 ∧
  |M.atan2f (dst.y - src.y) (M.sqrtf (diff.x * diff.x + diff.z * diff.z))| * 180 / 3.14159 ≤ 60

/-! ## Sample inputs

Concrete states on which the statements below are evaluated. -/

/-- One step of Heron's iteration for a square root. -/
def heron (x g : ℚ) : ℚ := (g + x / g) / 2

/-- A computable stand-in for the C library.  It is exact at the arguments the
examples evaluate it at (`sqrtf 0 = 0`, `sinf 0 = 0`, `cosf 0 = 1`), gives a
quarter turn (1.5708) for `atan2f y 0` with `y > 0`, and is a crude rational
approximation elsewhere; its `rand()` returns 50 at every call. -/
def samplePlatform : Platform :=
  { sqrtf := fun x => if x ≤ 0 then 0 else heron x (heron x (heron x ((x + 1) / 2)))
    sinf := fun x => x - x ^ 3 / 6 + x ^ 5 / 120
    cosf := fun x => 1 - x ^ 2 / 2 + x ^ 4 / 24
    atan2f := fun y x =>
      if x = 0 then (if 0 < y then 1.5708 else if y < 0 then -1.5708 else 0)
      else (y / x) / (1 + 0.28 * (y / x) ^ 2)
    randValue := fun _ => 50
    randNext := fun s => s + 1 }

/-- A free bullet slot. -/
def freeBullet : Bullet :=
  { pos := Vec3.zero, dir := Vec3.zero, active := false, life := 0, owner := 0 }

/-- A free particle slot. -/
def freeParticle : Particle :=
  { pos := Vec3.zero, vel := Vec3.zero, life := 0, active := false }

/-- An enemy killed a moment ago: health 32 took a hit, half a second of the
death countdown has run. -/
def deadEnemy : Enemy :=
  { pos := { x := 8, y := 4, z := -8 }, dir := { x := 1, y := 0, z := 0 }
    size := 0.4, health := -2, active := true, flashTimer := 0.25, moveSpeed := 0.8
    shootCooldown := 1, canSeePlayer := false, lastSeenTime := 0
    lastSeenPos := Vec3.zero, deathTimer := 1.5 }

/-- An enemy bullet that the next frame of 0.02 s carries to the point (0, 3.6, 0). -/
def incomingBullet : Bullet :=
  { pos := { x := 0, y := 3.6, z := 0.3 }, dir := { x := 0, y := 0, z := -1 }
    active := true, life := 2, owner := 1 }

/-- A second enemy bullet, from another side, that reaches the same point in the
same frame. -/
def incomingBullet2 : Bullet :=
  { pos := { x := 0.3, y := 3.6, z := 0 }, dir := { x := -1, y := 0, z := 0 }
    active := true, life := 2.5, owner := 1 }

/-- The player stands on the ground at the origin (terrain height 2, eye height
1.6) with 25 health left, ten seconds into the game; the enemies are dead and two
of their bullets are about to arrive. -/
def twoHitsWorld : World :=
  { initialGlobals 7 with
    lastTime := 9.98
    camPos := { x := 0, y := 3.6, z := 0 }
    playerHealth := 25
    score := 400
    enemies := List.replicate MAX_ENEMIES deadEnemy
    bullets := incomingBullet :: incomingBullet2 :: List.replicate 58 freeBullet }

/-- As `twoHitsWorld`, with a single bullet about to arrive. -/
def lastHitWorld : World :=
  { twoHitsWorld with bullets := incomingBullet :: List.replicate 59 freeBullet }

/-- The game is over while a reload was in progress and bullets are still in flight. -/
def overWorld : World :=
  { twoHitsWorld with playerHealth := 0, gameOver := true, reloading := true, reloadTimer := 0.01 }

/-- Full health, ten rounds left in the magazine, no bullet in flight. -/
def reloadWorld : World :=
  { twoHitsWorld with
    playerHealth := 100, bulletsLeft := 10
    bullets := List.replicate MAX_BULLETS freeBullet }

/-- A live enemy standing at `(x, y, z)`, more than 25 units from the origin, that
last saw the player at time 0. -/
def farEnemy (x y z health : ℚ) : Enemy :=
  { pos := { x := x, y := y, z := z }, dir := { x := 1, y := 0, z := 0 }
    size := 0.4, health := health, active := true, flashTimer := 0, moveSpeed := 0.8
    shootCooldown := 1, canSeePlayer := false, lastSeenTime := 0
    lastSeenPos := Vec3.zero, deathTimer := 0 }

/-- A player bullet that the next frame of 0.02 s carries to the point (24, 5.3, -16). -/
def outgoingBullet : Bullet :=
  { pos := { x := 23.76, y := 5.3, z := -15.82 }, dir := { x := 0.8, y := 0, z := -0.6 }
    active := true, life := 1, owner := 0 }

/-- A player bullet at the point (24, 5.3, -16). -/
def arrivedBullet : Bullet :=
  { pos := { x := 24, y := 5.3, z := -16 }, dir := { x := 0.8, y := 0, z := -0.6 }
    active := true, life := 1, owner := 0 }

/-- Four live enemies far from the player, the first down to 32 health (two hits
taken), and a player bullet about to reach it. -/
def woundedWorld : World :=
  { twoHitsWorld with
    playerHealth := 100
    enemies := [farEnemy 24 4.8 (-16) 32, farEnemy (-24) 3.6 (-16) 100,
      farEnemy 24 3.6 16 100, farEnemy (-24) 2.4 16 100]
    bullets := outgoingBullet :: List.replicate 59 freeBullet }

/-- The state at the start of a collision pass in which the first two enemies stand
on the same spot, a player bullet is inside both, and the third enemy is dead. -/
def pierceWorld : World :=
  { twoHitsWorld with
    playerHealth := 100
    enemies := [farEnemy 24 4.8 (-16) 100, farEnemy 24 4.8 (-16) 100,
      deadEnemy, farEnemy (-24) 2.4 16 100]
    bullets := arrivedBullet :: List.replicate 59 freeBullet }

/-- The state at the start of a collision pass in which the first enemy has 30
health left and two player bullets are inside it; the third enemy is dead. -/
def killWorld : World :=
  { twoHitsWorld with
    playerHealth := 100
    enemies := [farEnemy 24 4.8 (-16) 30, farEnemy (-24) 3.6 (-16) 100,
      deadEnemy, farEnemy (-24) 2.4 16 100]
    bullets := arrivedBullet :: arrivedBullet :: List.replicate 58 freeBullet }

/-- An enemy whose death countdown has 0.01 s left. -/
def expiringEnemy : Enemy := { deadEnemy with deathTimer := 0.01 }

/-- The state at the start of a respawn pass with one enemy about to respawn. -/
def expiringWorld : World :=
  { reloadWorld with
    enemies := [expiringEnemy, deadEnemy, farEnemy 24 3.6 16 100, farEnemy (-24) 2.4 16 100] }

/-- The forward key `w` is held, the stored speed is the walking speed 5, the
camera looks along the negative z axis. -/
def walkWorld : World :=
  { reloadWorld with keyDown := fun k => decide (k = keyCode 'w') }

/-- A live enemy at the origin, at eye height on the terrain of `samplePlatform`,
heading along the x axis. -/
def groundedEnemy : Enemy :=
  { farEnemy 0 3.6 0 100 with dir := { x := 1, y := 0, z := 0 } }

/-- As `samplePlatform`, with a `rand()` that returns 7 at every call. -/
def movingPlatform : Platform := { samplePlatform with randValue := fun _ => 7 }

end FPS

/-! # Theorems -/

namespace FPS


theorem firstFreeBullet_cons (b : Bullet) (bs : List Bullet) :
    firstFreeBullet (b :: bs) =
      if b.active = false then some 0 else (firstFreeBullet bs).map (· + 1) := rfl

theorem firstFreeBullet_some {bs : List Bullet} {i : Nat} (h : firstFreeBullet bs = some i) :
    (∃ b, bs[i]? = some b ∧ b.active = false) ∧
    ∀ j, j < i → ∃ b, bs[j]? = some b ∧ b.active = true := by
  induction bs generalizing i with
  | nil => simp [firstFreeBullet] at h
  | cons b bs ih =>
    rw [firstFreeBullet_cons] at h
    by_cases hb : b.active = false
    · rw [if_pos hb] at h
      cases h
      exact ⟨⟨b, by simp, hb⟩, fun j hj => absurd hj (Nat.not_lt_zero j)⟩
    · rw [if_neg hb] at h
      cases hk : firstFreeBullet bs with
      | none => rw [hk] at h; cases h
      | some k =>
        rw [hk] at h
        cases h
        obtain ⟨⟨c, hc, hca⟩, hlt⟩ := ih hk
        refine ⟨⟨c, by simpa using hc, hca⟩, ?_⟩
        intro j hj
        cases j with
        | zero => exact ⟨b, by simp, by simpa using hb⟩
        | succ j =>
          have hj2 : j < k := by simpa using hj
          obtain ⟨d, hd, hda⟩ := hlt j hj2
          exact ⟨d, by simpa using hd, hda⟩

theorem firstFreeBullet_none {bs : List Bullet} :
    firstFreeBullet bs = none ↔ ∀ b ∈ bs, b.active = true := by
  induction bs with
  | nil => simp [firstFreeBullet]
  | cons b bs ih =>
    rw [firstFreeBullet_cons]
    by_cases hb : b.active = false
    · simp [hb]
    · rw [if_neg hb]
      have hb1 : b.active = true := by simpa using hb
      cases hk : firstFreeBullet bs with
      | none => simpa [hb1] using ih.mp hk
      | some k =>
        simp only [Option.map_some', List.mem_cons, forall_eq_or_imp]
        constructor
        · intro h; cases h
        · rintro ⟨_, hall⟩
          rw [ih.mpr hall] at hk
          cases hk

theorem countP_set_firstFree {bs : List Bullet} {i : Nat} (nb : Bullet)
    (h : firstFreeBullet bs = some i) (hnb : nb.active = true) :
    (bs.set i nb).countP (fun b => b.active) = bs.countP (fun b => b.active) + 1 := by
  induction bs generalizing i with
  | nil => simp [firstFreeBullet] at h
  | cons b bs ih =>
    rw [firstFreeBullet_cons] at h
    by_cases hb : b.active = false
    · rw [if_pos hb] at h
      cases h
      simp [List.countP_cons, hb, hnb]
    · rw [if_neg hb] at h
      cases hk : firstFreeBullet bs with
      | none => rw [hk] at h; cases h
      | some k =>
        rw [hk] at h
        cases h
        simp only [Option.map_some', List.set_cons_succ, List.countP_cons, ih hk]
        omega

/-- C4. A fire request that is honoured: when the player is not reloading, has at
least one round, the game is not over and some bullet slot is free, `fireBullet`
writes the new bullet (owner 0, at `camPos`, heading `camFront`, life 3) into
the lowest-index free slot `i` (slot `i` is free, every slot before it is active),
takes one round from the magazine and sets `justFired`; nothing else changes, and
the number of active bullets grows by exactly one. -/
theorem fireBullet_success (w : World) (hr : w.reloading = false) (ha : 0 < w.bulletsLeft)
    (hg : w.gameOver = false) (hfree : ∃ b ∈ w.bullets, b.active = false) :
    ∃ i, (∃ b, w.bullets[i]? = some b ∧ b.active = false) ∧
      (∀ j, j < i → ∃ b, w.bullets[j]? = some b ∧ b.active = true) ∧
      fireBullet w =
        { w with
          bullets := w.bullets.set i
            { pos := w.camPos, dir := w.camFront, active := true, life := 3, owner := 0 }
          bulletsLeft := w.bulletsLeft - 1
          justFired := true } ∧
      (fireBullet w).bullets.countP (fun b => b.active)
        = w.bullets.countP (fun b => b.active) + 1 := by
  cases hk : firstFreeBullet w.bullets with
  | none =>
    obtain ⟨b, hb, hba⟩ := hfree
    have := firstFreeBullet_none.mp hk b hb
    rw [hba] at this
    cases this
  | some i =>
    have hguard : ¬(w.reloading = true ∨ w.bulletsLeft ≤ 0 ∨ w.gameOver = true) := by
      rw [hr, hg]
      simp
      exact ha
    have heq : fireBullet w =
        { w with
          bullets := w.bullets.set i
            { pos := w.camPos, dir := w.camFront, active := true, life := 3, owner := 0 }
          bulletsLeft := w.bulletsLeft - 1
          justFired := true } := by
      unfold fireBullet
      rw [if_neg hguard, hk]
    refine ⟨i, (firstFreeBullet_some hk).1, (firstFreeBullet_some hk).2, heq, ?_⟩
    rw [heq]
    exact countP_set_firstFree _ hk rfl

/-- C5. A rejected fire request is a no-op: while reloading, with an empty
magazine, after game over, or with every bullet slot active, `fireBullet` returns
the state it was given (so the bullets, their active count, `bulletsLeft` and
`justFired` are what they were). -/
theorem fireBullet_rejected (w : World)
    (h : w.reloading = true ∨ w.bulletsLeft ≤ 0 ∨ w.gameOver = true ∨
      ∀ b ∈ w.bullets, b.active = true) :
    fireBullet w = w := by
  unfold fireBullet
  by_cases hguard : w.reloading = true ∨ w.bulletsLeft ≤ 0 ∨ w.gameOver = true
  · rw [if_pos hguard]
  · rw [if_neg hguard]
    have hall : ∀ b ∈ w.bullets, b.active = true := by
      rcases h with h | h | h | h
      · exact absurd (Or.inl h) hguard
      · exact absurd (Or.inr (Or.inl h)) hguard
      · exact absurd (Or.inr (Or.inr h)) hguard
      · exact h
    rw [firstFreeBullet_none.mpr hall]

/-- C6. While a reload is in progress the reload key (`r` or `R`) leaves
`reloading`, `reloadTimer` and `bulletsLeft` as they are, and pressing it a second
time yields the same state as pressing it once. -/
theorem reload_request_idempotent (w : World) (key : Nat)
    (hkey : key = keyCode 'r' ∨ key = keyCode 'R') (h : w.reloading = true) :
    (keyboardDown key w).reloading = w.reloading ∧
    (keyboardDown key w).reloadTimer = w.reloadTimer ∧
    (keyboardDown key w).bulletsLeft = w.bulletsLeft ∧
    keyboardDown key (keyboardDown key w) = keyboardDown key w := by
  have h27 : key ≠ 27 := by
    rcases hkey with rfl | rfl <;> decide
  have h1 : keyboardDown key w =
      { w with keyDown := fun k => if k = key then true else w.keyDown k } := by
    unfold keyboardDown
    simp [h27, h, hkey]
  refine ⟨by rw [h1], by rw [h1], by rw [h1], ?_⟩
  have h2 : ({ w with keyDown := fun k => if k = key then true else w.keyDown k } : World).reloading
      = true := h
  rw [h1]
  unfold keyboardDown
  simp only [h27, if_false, hkey, if_true, h2]
  simp

/-! frame conditions -/

theorem spawnParticle_frame (M : Platform) (pos : Vec3) (w : World) :
    ∃ ps s, spawnParticle M pos w = { w with particles := ps, seed := s } := by
  unfold spawnParticle
  cases firstFreeParticle w.particles with
  | none => exact ⟨w.particles, w.seed, rfl⟩
  | some i => exact ⟨_, _, rfl⟩

theorem enemyTurn_frame (M : Platform) (t : ℚ) (e : Enemy) (w : World) :
    ∃ s, (enemyTurn M t e w).2 = { w with seed := s } := by
  unfold enemyTurn
  simp only [rand]
  split_ifs <;> exact ⟨_, rfl⟩

theorem enemyMove_frame (M : Platform) (dt : ℚ) (e : Enemy) (w : World) :
    ∃ s, (enemyMove M dt e w).2 = { w with seed := s } := by
  unfold enemyMove
  simp only [rand]
  split_ifs <;> exact ⟨_, rfl⟩

theorem enemyShoot_frame (M : Platform) (dt : ℚ) (e : Enemy) (w : World) :
    ∃ bs ps s, (enemyShoot M dt e w).2 = { w with bullets := bs, particles := ps, seed := s } := by
  unfold enemyShoot
  simp only [rand]
  split_ifs
  · cases firstFreeBullet w.bullets with
    | none => exact ⟨w.bullets, w.particles, w.seed, rfl⟩
    | some bi =>
      simp only []
      obtain ⟨ps, s, h⟩ := spawnParticle_frame M
        { x := e.pos.x + e.dir.x * 0.4, y := e.pos.y + 1.4, z := e.pos.z + e.dir.z * 0.4 }
        { w with
          bullets := w.bullets.set bi
            { active := true, pos := { e.pos with y := e.pos.y + 1.4 }
              dir := vecNormalize M (vecSub w.camPos { e.pos with y := e.pos.y + 1.4 })
              life := 3, owner := 1 }
          seed := M.randNext w.seed }
      rw [h]
      exact ⟨_, _, _, rfl⟩
  · exact ⟨w.bullets, w.particles, w.seed, rfl⟩

theorem enemyUpdate_alive (M : Platform) (t dt : ℚ) (e : Enemy) (w : World)
    (h : ¬(e.active = false ∨ e.deathTimer > 0)) :
    enemyUpdate M t dt e w =
      enemyShoot M dt
        (enemyMove M dt (enemyTurn M t (enemySense M t dt w.camPos e) w).1
          (enemyTurn M t (enemySense M t dt w.camPos e) w).2).1
        (enemyMove M dt (enemyTurn M t (enemySense M t dt w.camPos e) w).1
          (enemyTurn M t (enemySense M t dt w.camPos e) w).2).2 := by
  unfold enemyUpdate
  rw [if_neg h]

theorem enemyUpdate_frame (M : Platform) (t dt : ℚ) (e : Enemy) (w : World) :
    ∃ bs ps s, (enemyUpdate M t dt e w).2 = { w with bullets := bs, particles := ps, seed := s } := by
  by_cases hd : e.active = false ∨ e.deathTimer > 0
  · unfold enemyUpdate
    rw [if_pos hd]
    exact ⟨w.bullets, w.particles, w.seed, rfl⟩
  · rw [enemyUpdate_alive M t dt e w hd]
    obtain ⟨s2, h2⟩ := enemyTurn_frame M t (enemySense M t dt w.camPos e) w
    generalize enemyTurn M t (enemySense M t dt w.camPos e) w = r2 at *
    obtain ⟨s3, h3⟩ := enemyMove_frame M dt r2.1 r2.2
    generalize enemyMove M dt r2.1 r2.2 = r3 at *
    obtain ⟨bs, ps, s, h4⟩ := enemyShoot_frame M dt r3.1 r3.2
    rw [h4, h3, h2]
    exact ⟨bs, ps, s, rfl⟩

theorem enemiesLoop_cons (M : Platform) (t dt : ℚ) (e : Enemy) (es : List Enemy) (w : World) :
    enemiesLoop M t dt (e :: es) w =
      ((enemyUpdate M t dt e w).1 :: (enemiesLoop M t dt es (enemyUpdate M t dt e w).2).1,
        (enemiesLoop M t dt es (enemyUpdate M t dt e w).2).2) := rfl

theorem enemiesLoop_frame (M : Platform) (t dt : ℚ) (es : List Enemy) (w : World) :
    ∃ bs ps s, (enemiesLoop M t dt es w).2 =
      { w with bullets := bs, particles := ps, seed := s } := by
  induction es generalizing w with
  | nil => exact ⟨w.bullets, w.particles, w.seed, rfl⟩
  | cons e es ih =>
    rw [enemiesLoop_cons]
    obtain ⟨bs, ps, s, h1⟩ := enemyUpdate_frame M t dt e w
    obtain ⟨bs2, ps2, s2, h2⟩ := ih (enemyUpdate M t dt e w).2
    simp only []
    rw [h2, h1]
    exact ⟨bs2, ps2, s2, rfl⟩

theorem enemiesPass_eq (M : Platform) (t dt : ℚ) (w : World) :
    enemiesPass M t dt w =
      { (enemiesLoop M t dt w.enemies w).2 with
        enemies := (enemiesLoop M t dt w.enemies w).1 } := rfl

theorem enemiesPass_frame (M : Platform) (t dt : ℚ) (w : World) :
    ∃ es bs ps s, enemiesPass M t dt w =
      { w with enemies := es, bullets := bs, particles := ps, seed := s } := by
  rw [enemiesPass_eq]
  obtain ⟨bs, ps, s, h⟩ := enemiesLoop_frame M t dt w.enemies w
  rw [h]
  exact ⟨_, bs, ps, s, rfl⟩

theorem respawnEnemy_frame (M : Platform) (dt : ℚ) (e : Enemy) (w : World) :
    ∃ s, (respawnEnemy M dt e w).2 = { w with seed := s } := by
  unfold respawnEnemy
  simp only [rand]
  split_ifs <;> exact ⟨_, rfl⟩

theorem respawnLoop_cons (M : Platform) (dt : ℚ) (e : Enemy) (es : List Enemy) (w : World) :
    respawnLoop M dt (e :: es) w =
      ((respawnEnemy M dt e w).1 :: (respawnLoop M dt es (respawnEnemy M dt e w).2).1,
        (respawnLoop M dt es (respawnEnemy M dt e w).2).2) := rfl

theorem respawnLoop_frame (M : Platform) (dt : ℚ) (es : List Enemy) (w : World) :
    ∃ s, (respawnLoop M dt es w).2 = { w with seed := s } := by
  induction es generalizing w with
  | nil => exact ⟨w.seed, rfl⟩
  | cons e es ih =>
    rw [respawnLoop_cons]
    obtain ⟨s, h1⟩ := respawnEnemy_frame M dt e w
    obtain ⟨s2, h2⟩ := ih (respawnEnemy M dt e w).2
    simp only []
    rw [h2, h1]
    exact ⟨s2, rfl⟩

theorem respawnPass_eq (M : Platform) (dt : ℚ) (w : World) :
    respawnPass M dt w =
      { (respawnLoop M dt w.enemies w).2 with enemies := (respawnLoop M dt w.enemies w).1 } := rfl

theorem respawnPass_frame (M : Platform) (dt : ℚ) (w : World) :
    ∃ es s, respawnPass M dt w = { w with enemies := es, seed := s } := by
  rw [respawnPass_eq]
  obtain ⟨s, h⟩ := respawnLoop_frame M dt w.enemies w
  rw [h]
  exact ⟨_, s, rfl⟩

theorem hitPlayer_frame (M : Platform) (b : Bullet) (w : World) :
    ∃ h f g, (hitPlayer M b w).2 = { w with playerHealth := h, damageFlash := f, gameOver := g } := by
  unfold hitPlayer
  simp only []
  split_ifs
  all_goals first
    | exact ⟨w.playerHealth, w.damageFlash, w.gameOver, rfl⟩
    | exact ⟨_, _, w.gameOver, rfl⟩
    | exact ⟨_, _, _, rfl⟩

theorem hitEnemy_frame (M : Platform) (e : Enemy) (b : Bullet) (w : World) :
    ∃ ps s sc, (hitEnemy M e b w).2.2 = { w with particles := ps, seed := s, score := sc } := by
  unfold hitEnemy
  obtain ⟨ps, s, h⟩ := spawnParticle_frame M e.pos w
  simp only [h]
  split_ifs
  all_goals first
    | exact ⟨w.particles, w.seed, w.score, rfl⟩
    | exact ⟨ps, s, w.score, rfl⟩
    | exact ⟨ps, s, _, rfl⟩

theorem hitEnemies_cons (M : Platform) (e : Enemy) (es : List Enemy) (b : Bullet) (w : World) :
    hitEnemies M (e :: es) b w =
      ((hitEnemy M e b w).1 ::
          (hitEnemies M es (hitEnemy M e b w).2.1 (hitEnemy M e b w).2.2).1,
        (hitEnemies M es (hitEnemy M e b w).2.1 (hitEnemy M e b w).2.2).2.1,
        (hitEnemies M es (hitEnemy M e b w).2.1 (hitEnemy M e b w).2.2).2.2) := rfl

theorem hitEnemies_frame (M : Platform) (es : List Enemy) (b : Bullet) (w : World) :
    ∃ ps s sc, (hitEnemies M es b w).2.2 = { w with particles := ps, seed := s, score := sc } := by
  induction es generalizing b w with
  | nil => exact ⟨w.particles, w.seed, w.score, rfl⟩
  | cons e es ih =>
    rw [hitEnemies_cons]
    obtain ⟨ps, s, sc, h1⟩ := hitEnemy_frame M e b w
    obtain ⟨ps2, s2, sc2, h2⟩ := ih (hitEnemy M e b w).2.1 (hitEnemy M e b w).2.2
    simp only []
    rw [h2, h1]
    exact ⟨ps2, s2, sc2, rfl⟩

theorem collideBullet_eq (M : Platform) (b : Bullet) (w : World) :
    collideBullet M b w =
      if b.active = false then (b, w) else
      if (hitPlayer M b w).1.owner = 0 then
        ((hitEnemies M (hitPlayer M b w).2.enemies (hitPlayer M b w).1 (hitPlayer M b w).2).2.1,
          { (hitEnemies M (hitPlayer M b w).2.enemies (hitPlayer M b w).1 (hitPlayer M b w).2).2.2 with
            enemies :=
              (hitEnemies M (hitPlayer M b w).2.enemies (hitPlayer M b w).1 (hitPlayer M b w).2).1 })
      else hitPlayer M b w := rfl

theorem collideBullet_frame (M : Platform) (b : Bullet) (w : World) :
    ∃ h f g es ps s sc, (collideBullet M b w).2 =
      { w with playerHealth := h, damageFlash := f, gameOver := g, enemies := es,
               particles := ps, seed := s, score := sc } := by
  rw [collideBullet_eq]
  obtain ⟨h, f, g, h1⟩ := hitPlayer_frame M b w
  obtain ⟨ps, s, sc, h2⟩ :=
    hitEnemies_frame M (hitPlayer M b w).2.enemies (hitPlayer M b w).1 (hitPlayer M b w).2
  split_ifs
  · exact ⟨w.playerHealth, w.damageFlash, w.gameOver, w.enemies, w.particles, w.seed, w.score, rfl⟩
  · simp only []
    rw [h2, h1]
    exact ⟨h, f, g, _, ps, s, sc, rfl⟩
  · rw [h1]
    exact ⟨h, f, g, w.enemies, w.particles, w.seed, w.score, rfl⟩

theorem collideLoop_cons (M : Platform) (b : Bullet) (bs : List Bullet) (w : World) :
    collideLoop M (b :: bs) w =
      ((collideBullet M b w).1 :: (collideLoop M bs (collideBullet M b w).2).1,
        (collideLoop M bs (collideBullet M b w).2).2) := rfl

theorem collideLoop_frame (M : Platform) (bs : List Bullet) (w : World) :
    ∃ h f g es ps s sc, (collideLoop M bs w).2 =
      { w with playerHealth := h, damageFlash := f, gameOver := g, enemies := es,
               particles := ps, seed := s, score := sc } := by
  induction bs generalizing w with
  | nil =>
    exact ⟨w.playerHealth, w.damageFlash, w.gameOver, w.enemies, w.particles, w.seed, w.score, rfl⟩
  | cons b bs ih =>
    rw [collideLoop_cons]
    obtain ⟨h, f, g, es, ps, s, sc, h1⟩ := collideBullet_frame M b w
    obtain ⟨h', f', g', es', ps', s', sc', h2⟩ := ih (collideBullet M b w).2
    simp only []
    rw [h2, h1]
    exact ⟨h', f', g', es', ps', s', sc', rfl⟩

theorem collisions_eq (M : Platform) (w : World) :
    collisions M w =
      { (collideLoop M w.bullets w).2 with bullets := (collideLoop M w.bullets w).1 } := rfl

theorem collisions_frame (M : Platform) (w : World) :
    ∃ h f g es bs ps s sc, collisions M w =
      { w with playerHealth := h, damageFlash := f, gameOver := g, enemies := es, bullets := bs,
               particles := ps, seed := s, score := sc } := by
  rw [collisions_eq]
  obtain ⟨h, f, g, es, ps, s, sc, h1⟩ := collideLoop_frame M w.bullets w
  rw [h1]
  exact ⟨h, f, g, es, _, ps, s, sc, rfl⟩

theorem simulate_eq (M : Platform) (t dt : ℚ) (mod : Nat) (w : World) :
    simulate M t dt mod w =
      collisions M (respawnPass M dt (enemiesPass M t dt
        { reloadStep dt (jumpGravity M dt (cameraMovement dt mod w)) with
          bullets := (reloadStep dt (jumpGravity M dt (cameraMovement dt mod w))).bullets.map
            (bulletStep dt)
          particles := (reloadStep dt (jumpGravity M dt (cameraMovement dt mod w))).particles.map
            (particleStep dt) })) := rfl

theorem simulate_frame (M : Platform) (t dt : ℚ) (mod : Nat) (w : World) :
    ∃ h f g es bs ps s sc, simulate M t dt mod w =
      { reloadStep dt (jumpGravity M dt (cameraMovement dt mod w)) with
        playerHealth := h, damageFlash := f, gameOver := g, enemies := es, bullets := bs,
        particles := ps, seed := s, score := sc } := by
  rw [simulate_eq]
  generalize reloadStep dt (jumpGravity M dt (cameraMovement dt mod w)) = w0
  obtain ⟨es1, bs1, ps1, s1, h1⟩ := enemiesPass_frame M t dt
    { w0 with bullets := w0.bullets.map (bulletStep dt)
              particles := w0.particles.map (particleStep dt) }
  rw [h1]
  obtain ⟨es2, s2, h2⟩ := respawnPass_frame M dt
    { w0 with enemies := es1, bullets := bs1, particles := ps1, seed := s1 }
  have h2' : respawnPass M dt
      { ({ w0 with bullets := w0.bullets.map (bulletStep dt)
                   particles := w0.particles.map (particleStep dt) } : World) with
        enemies := es1, bullets := bs1, particles := ps1, seed := s1 } =
      { w0 with enemies := es2, bullets := bs1, particles := ps1, seed := s2 } := h2
  rw [h2']
  obtain ⟨h, f, g, es, bs, ps, s, sc, h3⟩ := collisions_frame M
    { w0 with enemies := es2, bullets := bs1, particles := ps1, seed := s2 }
  rw [h3]
  exact ⟨h, f, g, es, bs, ps, s, sc, rfl⟩

/-! player health and game over -/

theorem hitPlayer_inv (M : Platform) (b : Bullet) (w : World)
    (h : w.playerHealth ≤ 0 → w.gameOver = true) :
    (hitPlayer M b w).2.playerHealth ≤ 0 → (hitPlayer M b w).2.gameOver = true := by
  unfold hitPlayer
  simp only []
  split_ifs with h1 h2 h3
  · intro _; rfl
  · intro h4
    simp only [not_and, Bool.not_eq_false] at h3
    exact h3 h4
  · exact h
  · exact h

theorem hitPlayer_gameOver (M : Platform) (b : Bullet) (w : World) (h : w.gameOver = true) :
    (hitPlayer M b w).2.gameOver = true := by
  unfold hitPlayer
  simp only []
  split_ifs <;> first | rfl | exact h

theorem collideBullet_playerHealth (M : Platform) (b : Bullet) (w : World) :
    (collideBullet M b w).2.playerHealth =
      if b.active = false then w.playerHealth else (hitPlayer M b w).2.playerHealth := by
  rw [collideBullet_eq]
  obtain ⟨ps, s, sc, h2⟩ :=
    hitEnemies_frame M (hitPlayer M b w).2.enemies (hitPlayer M b w).1 (hitPlayer M b w).2
  split_ifs
  · rfl
  · simp only []
    rw [h2]
  · rfl

theorem collideBullet_gameOver (M : Platform) (b : Bullet) (w : World) :
    (collideBullet M b w).2.gameOver =
      if b.active = false then w.gameOver else (hitPlayer M b w).2.gameOver := by
  rw [collideBullet_eq]
  obtain ⟨ps, s, sc, h2⟩ :=
    hitEnemies_frame M (hitPlayer M b w).2.enemies (hitPlayer M b w).1 (hitPlayer M b w).2
  split_ifs
  · rfl
  · simp only []
    rw [h2]
  · rfl

theorem collideLoop_inv (M : Platform) (bs : List Bullet) (w : World)
    (h : w.playerHealth ≤ 0 → w.gameOver = true) :
    (collideLoop M bs w).2.playerHealth ≤ 0 → (collideLoop M bs w).2.gameOver = true := by
  induction bs generalizing w with
  | nil => exact h
  | cons b bs ih =>
    rw [collideLoop_cons]
    apply ih
    rw [collideBullet_playerHealth, collideBullet_gameOver]
    split_ifs
    · exact h
    · exact hitPlayer_inv M b w h

theorem collideLoop_gameOver (M : Platform) (bs : List Bullet) (w : World)
    (h : w.gameOver = true) : (collideLoop M bs w).2.gameOver = true := by
  induction bs generalizing w with
  | nil => exact h
  | cons b bs ih =>
    rw [collideLoop_cons]
    apply ih
    rw [collideBullet_gameOver]
    split_ifs
    · exact h
    · exact hitPlayer_gameOver M b w h

theorem cameraMovement_frame (dt : ℚ) (mod : Nat) (w : World) :
    ∃ p ms, cameraMovement dt mod w = { w with camPos := p, moveSpeed := ms } := by
  unfold cameraMovement
  simp only []
  split_ifs <;> exact ⟨_, _, rfl⟩

theorem jumpGravity_frame (M : Platform) (dt : ℚ) (w : World) :
    ∃ p v g, jumpGravity M dt w = { w with camPos := p, verticalVelocity := v, onGround := g } := by
  unfold jumpGravity
  simp only []
  split_ifs <;> exact ⟨_, _, _, rfl⟩

theorem reloadStep_frame (dt : ℚ) (w : World) :
    ∃ r rt bl, reloadStep dt w = { w with reloading := r, reloadTimer := rt, bulletsLeft := bl } := by
  unfold reloadStep
  simp only []
  split_ifs
  · exact ⟨_, _, _, rfl⟩
  · exact ⟨w.reloading, _, w.bulletsLeft, rfl⟩
  · exact ⟨w.reloading, w.reloadTimer, w.bulletsLeft, rfl⟩

theorem cameraMovement_keeps (dt : ℚ) (mod : Nat) (w : World) :
    vitals (cameraMovement dt mod w) = vitals w ∧
    reloadState (cameraMovement dt mod w) = reloadState w ∧
    (cameraMovement dt mod w).enemies = w.enemies := by
  obtain ⟨p, ms, h⟩ := cameraMovement_frame dt mod w
  rw [h]
  exact ⟨rfl, rfl, rfl⟩

theorem jumpGravity_keeps (M : Platform) (dt : ℚ) (w : World) :
    vitals (jumpGravity M dt w) = vitals w ∧
    reloadState (jumpGravity M dt w) = reloadState w ∧
    (jumpGravity M dt w).enemies = w.enemies := by
  obtain ⟨p, v, g, h⟩ := jumpGravity_frame M dt w
  rw [h]
  exact ⟨rfl, rfl, rfl⟩

theorem reloadStep_keeps (dt : ℚ) (w : World) :
    vitals (reloadStep dt w) = vitals w ∧ kinematics (reloadStep dt w) = kinematics w ∧
    (reloadStep dt w).enemies = w.enemies := by
  obtain ⟨r, rt, bl, h⟩ := reloadStep_frame dt w
  rw [h]
  exact ⟨rfl, rfl, rfl⟩

theorem enemiesPass_keeps (M : Platform) (t dt : ℚ) (w : World) :
    vitals (enemiesPass M t dt w) = vitals w ∧
    reloadState (enemiesPass M t dt w) = reloadState w ∧
    kinematics (enemiesPass M t dt w) = kinematics w := by
  obtain ⟨es, bs, ps, s, h⟩ := enemiesPass_frame M t dt w
  rw [h]
  exact ⟨rfl, rfl, rfl⟩

theorem respawnPass_keeps (M : Platform) (dt : ℚ) (w : World) :
    vitals (respawnPass M dt w) = vitals w ∧
    reloadState (respawnPass M dt w) = reloadState w ∧
    kinematics (respawnPass M dt w) = kinematics w ∧
    (respawnPass M dt w).bullets = w.bullets := by
  obtain ⟨es, s, h⟩ := respawnPass_frame M dt w
  rw [h]
  exact ⟨rfl, rfl, rfl, rfl⟩

theorem collisions_keeps (M : Platform) (w : World) :
    reloadState (collisions M w) = reloadState w ∧
    kinematics (collisions M w) = kinematics w := by
  obtain ⟨h, f, g, es, bs, ps, s, sc, h1⟩ := collisions_frame M w
  rw [h1]
  exact ⟨rfl, rfl⟩

/-- The world on which the collision pass of a frame runs. -/
theorem simulate_vitals_before (M : Platform) (t dt : ℚ) (mod : Nat) (w : World) :
    ∃ w0, simulate M t dt mod w = collisions M w0 ∧ vitals w0 = vitals w := by
  refine ⟨_, simulate_eq M t dt mod w, ?_⟩
  rw [(respawnPass_keeps M dt _).1, (enemiesPass_keeps M t dt _).1]
  show vitals (reloadStep dt (jumpGravity M dt (cameraMovement dt mod w))) = vitals w
  rw [(reloadStep_keeps dt _).1, (jumpGravity_keeps M dt _).1, (cameraMovement_keeps dt mod w).1]

theorem simulate_inv (M : Platform) (t dt : ℚ) (mod : Nat) (w : World)
    (h : w.playerHealth ≤ 0 → w.gameOver = true) :
    (simulate M t dt mod w).playerHealth ≤ 0 → (simulate M t dt mod w).gameOver = true := by
  obtain ⟨w0, h1, h2⟩ := simulate_vitals_before M t dt mod w
  rw [h1, collisions_eq]
  apply collideLoop_inv
  have hp : w0.playerHealth = w.playerHealth := congrArg (fun v => v.1) h2
  have hg : w0.gameOver = w.gameOver := congrArg (fun v => v.2.1) h2
  rw [hp, hg]
  exact h

theorem simulate_reloadState (M : Platform) (t dt : ℚ) (mod : Nat) (w : World) :
    reloadState (simulate M t dt mod w) = reloadState (reloadStep dt w) := by
  rw [simulate_eq, (collisions_keeps M _).1, (respawnPass_keeps M dt _).2.1,
    (enemiesPass_keeps M t dt _).2.1]
  show reloadState (reloadStep dt (jumpGravity M dt (cameraMovement dt mod w))) = _
  have h := (jumpGravity_keeps M dt (cameraMovement dt mod w)).2.1
  rw [(cameraMovement_keeps dt mod w).2.1] at h
  generalize jumpGravity M dt (cameraMovement dt mod w) = w1 at h
  have hr : w1.reloading = w.reloading := congrArg (fun v => v.1) h
  have ht : w1.reloadTimer = w.reloadTimer := congrArg (fun v => v.2.1) h
  have hb : w1.bulletsLeft = w.bulletsLeft := congrArg (fun v => v.2.2) h
  unfold reloadStep reloadState
  simp only [hr, ht, hb]
  split_ifs <;> simp [hr, ht, hb]

theorem frame_frame (M : Platform) (t dt : ℚ) (mod : Nat) (w : World) :
    ∃ cf cr cu df jf, frame M t dt mod w =
      { (if w.gameOver = false then simulate M t dt mod w else w) with
        camFront := cf, camRight := cr, camUp := cu, damageFlash := df, justFired := jf } := by
  unfold frame drawGun updateCameraVectors
  simp only []
  generalize (if w.gameOver = false then simulate M t dt mod w else w) = w0
  split_ifs <;> first
    | exact ⟨_, _, _, _, false, rfl⟩
    | exact ⟨_, _, _, _, w0.justFired, rfl⟩

theorem frame_keeps (M : Platform) (t dt : ℚ) (mod : Nat) (w : World) :
    vitals (frame M t dt mod w) = vitals (if w.gameOver = false then simulate M t dt mod w else w) ∧
    reloadState (frame M t dt mod w) =
      reloadState (if w.gameOver = false then simulate M t dt mod w else w) ∧
    kinematics (frame M t dt mod w) =
      kinematics (if w.gameOver = false then simulate M t dt mod w else w) := by
  obtain ⟨cf, cr, cu, df, jf, h⟩ := frame_frame M t dt mod w
  rw [h]
  exact ⟨rfl, rfl, rfl⟩

theorem frame_vitals_over (M : Platform) (t dt : ℚ) (mod : Nat) (w : World)
    (h : w.gameOver = true) : vitals (frame M t dt mod w) = vitals w := by
  rw [(frame_keeps M t dt mod w).1, if_neg (by simp [h])]

theorem frame_vitals_live (M : Platform) (t dt : ℚ) (mod : Nat) (w : World)
    (h : w.gameOver = false) :
    vitals (frame M t dt mod w) = vitals (simulate M t dt mod w) := by
  rw [(frame_keeps M t dt mod w).1, if_pos h]

theorem inv_of_vitals {w1 w : World} (hv : vitals w1 = vitals w)
    (h : w.playerHealth ≤ 0 → w.gameOver = true) : w1.playerHealth ≤ 0 → w1.gameOver = true := by
  have hp : w1.playerHealth = w.playerHealth := congrArg (fun v => v.1) hv
  have hg : w1.gameOver = w.gameOver := congrArg (fun v => v.2.1) hv
  rw [hp, hg]
  exact h

theorem frame_inv (M : Platform) (t dt : ℚ) (mod : Nat) (w : World)
    (h : w.playerHealth ≤ 0 → w.gameOver = true) :
    (frame M t dt mod w).playerHealth ≤ 0 → (frame M t dt mod w).gameOver = true := by
  cases hg : w.gameOver with
  | true => exact inv_of_vitals (frame_vitals_over M t dt mod w hg) h
  | false => exact inv_of_vitals (frame_vitals_live M t dt mod w hg) (simulate_inv M t dt mod w h)

theorem frame_gameOver (M : Platform) (t dt : ℚ) (mod : Nat) (w : World)
    (h : w.gameOver = true) : (frame M t dt mod w).gameOver = true := by
  have hg : (frame M t dt mod w).gameOver = w.gameOver :=
    congrArg (fun v => v.2.1) (frame_vitals_over M t dt mod w h)
  rw [hg]
  exact h

theorem fireBullet_vitals (w : World) : vitals (fireBullet w) = vitals w := by
  unfold fireBullet
  split_ifs
  · rfl
  · cases firstFreeBullet w.bullets <;> rfl

theorem passiveMouse_vitals (M : Platform) (x y : Int) (w : World) :
    vitals (passiveMouse M x y w) = vitals w := by
  unfold passiveMouse updateCameraVectors
  simp only []
  split_ifs <;> rfl

theorem keyboardDown_vitals (key : Nat) (w : World) :
    vitals (keyboardDown key w) = vitals w := by
  unfold keyboardDown
  simp only []
  split_ifs <;> rfl

theorem event_inv (M : Platform) (ev : Event) (w : World)
    (h : w.playerHealth ≤ 0 → w.gameOver = true) :
    (ev.apply M w).playerHealth ≤ 0 → (ev.apply M w).gameOver = true := by
  have key : ∀ w1 : World, vitals w1 = vitals w →
      (w1.playerHealth ≤ 0 → w1.gameOver = true) := by
    intro w1 hv
    have hp : w1.playerHealth = w.playerHealth := congrArg (fun v => v.1) hv
    have hg : w1.gameOver = w.gameOver := congrArg (fun v => v.2.1) hv
    rw [hp, hg]
    exact h
  cases ev with
  | display t mod => exact frame_inv M t _ mod _ h
  | passiveMouse x y => exact key _ (passiveMouse_vitals M x y w)
  | keyboardDown k => exact key _ (keyboardDown_vitals k w)
  | keyboardUp k => exact h
  | reshape width height => exact h
  | specialDown => exact h
  | mouseClick b st =>
    apply key
    show vitals (mouseClick b st w) = vitals w
    unfold mouseClick
    split_ifs
    · exact fireBullet_vitals w
    · rfl

theorem event_gameOver (M : Platform) (ev : Event) (w : World) (h : w.gameOver = true) :
    (ev.apply M w).gameOver = true := by
  have key : ∀ w1 : World, vitals w1 = vitals w → w1.gameOver = true := by
    intro w1 hv
    have hg : w1.gameOver = w.gameOver := congrArg (fun v => v.2.1) hv
    rw [hg]
    exact h
  cases ev with
  | display t mod => exact frame_gameOver M t _ mod _ h
  | passiveMouse x y => exact key _ (passiveMouse_vitals M x y w)
  | keyboardDown k => exact key _ (keyboardDown_vitals k w)
  | keyboardUp k => exact h
  | reshape width height => exact h
  | specialDown => exact h
  | mouseClick b st =>
    apply key
    show vitals (mouseClick b st w) = vitals w
    unfold mouseClick
    split_ifs
    · exact fireBullet_vitals w
    · rfl

theorem run_inv (M : Platform) (evs : List Event) (w : World)
    (h : w.playerHealth ≤ 0 → w.gameOver = true) :
    (run M evs w).playerHealth ≤ 0 → (run M evs w).gameOver = true := by
  induction evs generalizing w with
  | nil => exact h
  | cons ev evs ih => exact ih _ (event_inv M ev w h)

theorem initEnemy_frame (M : Platform) (e : Enemy) (w : World) :
    ∃ s, (initEnemy M e w).2 = { w with seed := s } := by
  unfold initEnemy
  simp only [rand]
  exact ⟨_, rfl⟩

theorem initEnemiesLoop_cons (M : Platform) (e : Enemy) (es : List Enemy) (w : World) :
    initEnemiesLoop M (e :: es) w =
      ((initEnemy M e w).1 :: (initEnemiesLoop M es (initEnemy M e w).2).1,
        (initEnemiesLoop M es (initEnemy M e w).2).2) := rfl

theorem initEnemiesLoop_frame (M : Platform) (es : List Enemy) (w : World) :
    ∃ s, (initEnemiesLoop M es w).2 = { w with seed := s } := by
  induction es generalizing w with
  | nil => exact ⟨w.seed, rfl⟩
  | cons e es ih =>
    rw [initEnemiesLoop_cons]
    obtain ⟨s, h1⟩ := initEnemy_frame M e w
    obtain ⟨s2, h2⟩ := ih (initEnemy M e w).2
    simp only []
    rw [h2, h1]
    exact ⟨s2, rfl⟩

theorem boot_frame (M : Platform) (seed seed2 : Nat) (t0 : ℚ) :
    ∃ cf cr cu es, boot M seed seed2 t0 =
      { initialGlobals seed with
        camFront := cf, camRight := cr, camUp := cu, enemies := es, seed := seed2
        ignoreWarp := true, lastTime := t0 } := by
  obtain ⟨s, h⟩ := initEnemiesLoop_frame M (updateCameraVectors M (initialGlobals seed)).enemies
    (updateCameraVectors M (initialGlobals seed))
  unfold boot initEnemies
  simp only []
  rw [h]
  exact ⟨_, _, _, _, rfl⟩

/-- C2. Game over is sticky and is raised when health runs out: no callback and no
call of `fireBullet` turns `gameOver` from true to false; a `display` frame that
starts in a state where depleted health already means game over and leaves
`playerHealth ≤ 0` leaves `gameOver` true; every state the program reaches from
start-up is such a state, so in every run a frame that leaves `playerHealth ≤ 0`
leaves `gameOver` true. -/
theorem gameOver_sticky_and_raised (M : Platform) :
    (∀ (w : World) (ev : Event), w.gameOver = true → (ev.apply M w).gameOver = true) ∧
    (∀ w : World, w.gameOver = true → (fireBullet w).gameOver = true) ∧
    (∀ (w : World) (t : ℚ) (mod : Nat), (w.playerHealth ≤ 0 → w.gameOver = true) →
      (display M t mod w).playerHealth ≤ 0 → (display M t mod w).gameOver = true) ∧
    (∀ (seed seedAfterRocks : Nat) (t0 : ℚ) (evs : List Event),
      ((run M evs (boot M seed seedAfterRocks t0)).playerHealth ≤ 0 →
        (run M evs (boot M seed seedAfterRocks t0)).gameOver = true) ∧
      ∀ (t : ℚ) (mod : Nat),
        (display M t mod (run M evs (boot M seed seedAfterRocks t0))).playerHealth ≤ 0 →
        (display M t mod (run M evs (boot M seed seedAfterRocks t0))).gameOver = true) := by
  have hboot : ∀ (seed seed2 : Nat) (t0 : ℚ) (evs : List Event),
      (run M evs (boot M seed seed2 t0)).playerHealth ≤ 0 →
        (run M evs (boot M seed seed2 t0)).gameOver = true := by
    intro seed seed2 t0 evs
    apply run_inv
    obtain ⟨cf, cr, cu, es, h⟩ := boot_frame M seed seed2 t0
    rw [h]
    intro h0
    have h100 : (100 : Int) ≤ 0 := h0
    exact absurd h100 (by decide)
  refine ⟨fun w ev h => event_gameOver M ev w h, ?_, ?_, ?_⟩
  · intro w h
    have hg : (fireBullet w).gameOver = w.gameOver :=
      congrArg (fun v => v.2.1) (fireBullet_vitals w)
    rw [hg]
    exact h
  · intro w t mod h
    exact frame_inv M t _ mod _ h
  · intro seed seed2 t0 evs
    refine ⟨hboot seed seed2 t0 evs, ?_⟩
    intro t mod
    exact frame_inv M t _ mod _ (hboot seed seed2 t0 evs)

theorem gameOver_sticky_and_raised_witness :
    (lastHitWorld.playerHealth ≤ 0 → lastHitWorld.gameOver = true) ∧
    (display samplePlatform 10 0 lastHitWorld).playerHealth ≤ 0 ∧
    (display samplePlatform 10 0 lastHitWorld).gameOver = true ∧
    (Event.apply samplePlatform (Event.mouseClick 0 0)
      (display samplePlatform 10 0 lastHitWorld)).gameOver = true :=
  ⟨by decide!, by decide!,
    (gameOver_sticky_and_raised samplePlatform).2.2.1 lastHitWorld 10 0 (by decide!) (by decide!),
    (gameOver_sticky_and_raised samplePlatform).1 _ _
      ((gameOver_sticky_and_raised samplePlatform).2.2.1 lastHitWorld 10 0 (by decide!)
        (by decide!))⟩

/-- C3. Game over freezes the simulation: when `gameOver` is true, a frame (with
any `dt`, in particular the frame `display` runs) leaves the player's position,
vertical velocity and grounded flag, the health, the magazine, the reload flag and
countdown, the score and every bullet, particle and enemy as they were. -/
theorem gameOver_freezes_simulation (M : Platform) (t dt : ℚ) (mod : Nat) (w w1 : World)
    (hover : w.gameOver = true)
    (hstep : w1 = frame M t dt mod w ∨ w1 = display M t mod w) :
    w1.camPos = w.camPos ∧ w1.verticalVelocity = w.verticalVelocity ∧
    w1.onGround = w.onGround ∧ w1.playerHealth = w.playerHealth ∧
    w1.bulletsLeft = w.bulletsLeft ∧ w1.reloading = w.reloading ∧
    w1.reloadTimer = w.reloadTimer ∧ w1.score = w.score ∧
    w1.bullets = w.bullets ∧ w1.particles = w.particles ∧ w1.enemies = w.enemies ∧
    w1.gameOver = true := by
  have key : ∀ (d : ℚ) (w0 : World), w0.gameOver = true →
      ∃ cf cr cu df jf, frame M t d mod w0 =
        { w0 with camFront := cf, camRight := cr, camUp := cu, damageFlash := df
                  justFired := jf } := by
    intro d w0 h0
    obtain ⟨cf, cr, cu, df, jf, h⟩ := frame_frame M t d mod w0
    rw [if_neg (by simp [h0])] at h
    exact ⟨cf, cr, cu, df, jf, h⟩
  rcases hstep with h | h
  · obtain ⟨cf, cr, cu, df, jf, h2⟩ := key dt w hover
    rw [h, h2]
    exact ⟨rfl, rfl, rfl, rfl, rfl, rfl, rfl, rfl, rfl, rfl, rfl, hover⟩
  · obtain ⟨cf, cr, cu, df, jf, h2⟩ := key (if w.lastTime = 0 then 0.016 else t - w.lastTime)
      { w with lastTime := t } hover
    have h3 : display M t mod w =
        frame M t (if w.lastTime = 0 then 0.016 else t - w.lastTime) mod
          { w with lastTime := t } := rfl
    rw [h, h3, h2]
    exact ⟨rfl, rfl, rfl, rfl, rfl, rfl, rfl, rfl, rfl, rfl, rfl, hover⟩


theorem gameOver_freezes_simulation_witness :
    overWorld.gameOver = true ∧
    (display samplePlatform 10 0 overWorld).playerHealth = overWorld.playerHealth ∧
    (display samplePlatform 10 0 overWorld).reloading = overWorld.reloading ∧
    (display samplePlatform 10 0 overWorld).bullets = overWorld.bullets :=
  have h := gameOver_freezes_simulation samplePlatform 10 0 0 overWorld
    (display samplePlatform 10 0 overWorld) (by decide!) (Or.inr rfl)
  ⟨by decide!, h.2.2.2.1, h.2.2.2.2.2.1, h.2.2.2.2.2.2.2.2.1⟩

/-! reload -/

theorem reloadState_reloadStep (dt : ℚ) (w : World) :
    reloadState (reloadStep dt w) =
      if w.reloading = true then
        if w.reloadTimer - dt ≤ 0 then (false, w.reloadTimer - dt, 30)
        else (true, w.reloadTimer - dt, w.bulletsLeft)
      else reloadState w := by
  unfold reloadStep reloadState
  simp only []
  split_ifs with h1 h2
  · rfl
  · rw [h1]
  · rfl

theorem frame_reloadState_live (M : Platform) (t dt : ℚ) (mod : Nat) (w : World)
    (h : w.gameOver = false) :
    reloadState (frame M t dt mod w) = reloadState (reloadStep dt w) := by
  rw [(frame_keeps M t dt mod w).2.1, if_pos h, simulate_reloadState]

theorem frame_reloadState_over (M : Platform) (t dt : ℚ) (mod : Nat) (w : World)
    (h : w.gameOver = true) :
    reloadState (frame M t dt mod w) = reloadState w := by
  rw [(frame_keeps M t dt mod w).2.1, if_neg (by simp [h])]

theorem frame_reloadState_idle (M : Platform) (t dt : ℚ) (mod : Nat) (w : World)
    (h : w.reloading = false) :
    reloadState (frame M t dt mod w) = reloadState w := by
  cases hg : w.gameOver with
  | true => exact frame_reloadState_over M t dt mod w hg
  | false =>
    rw [frame_reloadState_live M t dt mod w hg, reloadState_reloadStep, if_neg (by simp [h])]

theorem runFrames_idle (M : Platform) (fs : List (ℚ × ℚ × Nat)) (w : World)
    (h : w.reloading = false) :
    reloadState (runFrames M fs w) = reloadState w := by
  induction fs generalizing w with
  | nil => rfl
  | cons f fs ih =>
    have h1 := frame_reloadState_idle M f.1 f.2.1 f.2.2 w h
    have h2 : (frame M f.1 f.2.1 f.2.2 w).reloading = false := by
      have := congrArg (fun v => v.1) h1
      exact this.trans h
    show reloadState (runFrames M fs (frame M f.1 f.2.1 f.2.2 w)) = _
    rw [ih _ h2, h1]

theorem elapsed_nonneg (fs : List (ℚ × ℚ × Nat)) (h : ∀ f ∈ fs, 0 ≤ f.2.1) : 0 ≤ elapsed fs := by
  induction fs with
  | nil => exact le_refl 0
  | cons f fs ih =>
    have h1 := h f (List.mem_cons_self f fs)
    have h2 := ih (fun g hg => h g (List.mem_cons_of_mem f hg))
    show 0 ≤ f.2.1 + elapsed fs
    linarith

theorem runFrames_reloading (M : Platform) (fs : List (ℚ × ℚ × Nat)) (w : World)
    (hr : w.reloading = true) (ht : 0 < w.reloadTimer)
    (hdt : ∀ f ∈ fs, 0 ≤ f.2.1) (hlive : notOverDuring M fs w) :
    (elapsed fs < w.reloadTimer →
      reloadState (runFrames M fs w) = (true, w.reloadTimer - elapsed fs, w.bulletsLeft)) ∧
    (w.reloadTimer ≤ elapsed fs →
      (runFrames M fs w).reloading = false ∧ (runFrames M fs w).bulletsLeft = 30) := by
  induction fs generalizing w with
  | nil =>
    constructor
    · intro _
      show reloadState w = (true, w.reloadTimer - 0, w.bulletsLeft)
      unfold reloadState
      rw [hr, sub_zero]
    · intro h
      have h0 : w.reloadTimer ≤ 0 := h
      linarith
  | cons f fs ih =>
    obtain ⟨hg, hlive2⟩ := hlive
    have hf := hdt f (List.mem_cons_self f fs)
    have hrest : ∀ g ∈ fs, 0 ≤ g.2.1 := fun g hg => hdt g (List.mem_cons_of_mem f hg)
    have hel := elapsed_nonneg fs hrest
    have h1 := frame_reloadState_live M f.1 f.2.1 f.2.2 w hg
    rw [reloadState_reloadStep, if_pos hr] at h1
    have hsum : elapsed (f :: fs) = f.2.1 + elapsed fs := rfl
    have hrun : runFrames M (f :: fs) w = runFrames M fs (frame M f.1 f.2.1 f.2.2 w) := rfl
    rw [hsum, hrun]
    by_cases hdone : w.reloadTimer - f.2.1 ≤ 0
    · rw [if_pos hdone] at h1
      have hr2 : (frame M f.1 f.2.1 f.2.2 w).reloading = false := congrArg (fun v => v.1) h1
      have hb2 : (frame M f.1 f.2.1 f.2.2 w).bulletsLeft = 30 := congrArg (fun v => v.2.2) h1
      have h3 := runFrames_idle M fs _ hr2
      constructor
      · intro hlt
        linarith
      · intro _
        have h4 : (runFrames M fs (frame M f.1 f.2.1 f.2.2 w)).reloading = _ :=
          congrArg (fun v => v.1) h3
        have h5 : (runFrames M fs (frame M f.1 f.2.1 f.2.2 w)).bulletsLeft = _ :=
          congrArg (fun v => v.2.2) h3
        exact ⟨h4.trans hr2, h5.trans hb2⟩
    · rw [if_neg hdone] at h1
      have hr2 : (frame M f.1 f.2.1 f.2.2 w).reloading = true := congrArg (fun v => v.1) h1
      have ht2 : (frame M f.1 f.2.1 f.2.2 w).reloadTimer = w.reloadTimer - f.2.1 :=
        congrArg (fun v => v.2.1) h1
      have hb2 : (frame M f.1 f.2.1 f.2.2 w).bulletsLeft = w.bulletsLeft :=
        congrArg (fun v => v.2.2) h1
      have hpos : 0 < (frame M f.1 f.2.1 f.2.2 w).reloadTimer := by
        rw [ht2]
        linarith
      obtain ⟨ihA, ihB⟩ := ih _ hr2 hpos hrest hlive2
      rw [ht2, hb2] at ihA
      rw [ht2] at ihB
      constructor
      · intro hlt
        rw [ihA (by linarith)]
        congr 2
        ring
      · intro hge
        exact ihB (by linarith)

theorem fireBullet_of_reloading (w : World) (h : w.reloading = true) : fireBullet w = w := by
  unfold fireBullet
  rw [if_pos (Or.inl h)]

/-- C7. A reload takes 1.5 s of simulated time: from a state that is not reloading,
with fewer than 30 rounds and the game not over, the reload key sets `reloading`
and a countdown of 1.5 and leaves the magazine alone; then, over any frames with
non-negative `dt` at whose starts the game is not over, the reload is still running
and `fireBullet` changes nothing as long as the `dt` sum is below 1.5, and once the
sum has reached 1.5 the reload is finished and the magazine holds 30. -/
theorem reload_completes_after_reloadTime (M : Platform) (w : World) (key : Nat)
    (hkey : key = keyCode 'r' ∨ key = keyCode 'R')
    (hr : w.reloading = false) (hb : w.bulletsLeft < 30) (hg : w.gameOver = false) :
    (keyboardDown key w).reloading = true ∧
    (keyboardDown key w).reloadTimer = 1.5 ∧
    (keyboardDown key w).bulletsLeft = w.bulletsLeft ∧
    ∀ fs : List (ℚ × ℚ × Nat), (∀ f ∈ fs, 0 ≤ f.2.1) →
      notOverDuring M fs (keyboardDown key w) →
      (elapsed fs < 1.5 →
        (runFrames M fs (keyboardDown key w)).reloading = true ∧
        fireBullet (runFrames M fs (keyboardDown key w)) = runFrames M fs (keyboardDown key w)) ∧
      (1.5 ≤ elapsed fs →
        (runFrames M fs (keyboardDown key w)).reloading = false ∧
        (runFrames M fs (keyboardDown key w)).bulletsLeft = 30) := by
  have h27 : key ≠ 27 := by
    rcases hkey with rfl | rfl <;> decide
  have h1 : keyboardDown key w =
      { w with keyDown := fun k => if k = key then true else w.keyDown k
               reloading := true, reloadTimer := reloadTime } := by
    unfold keyboardDown
    simp [h27, hr, hb, hg, hkey]
  have hR : (keyboardDown key w).reloading = true := by rw [h1]
  have hT : (keyboardDown key w).reloadTimer = 1.5 := by rw [h1]; rfl
  have hB : (keyboardDown key w).bulletsLeft = w.bulletsLeft := by rw [h1]
  refine ⟨hR, hT, hB, ?_⟩
  intro fs hdt hlive
  have hpos : 0 < (keyboardDown key w).reloadTimer := by rw [hT]; norm_num
  obtain ⟨hA, hB2⟩ := runFrames_reloading M fs (keyboardDown key w) hR hpos hdt hlive
  rw [hT] at hA hB2
  constructor
  · intro hlt
    have h2 : (runFrames M fs (keyboardDown key w)).reloading = true :=
      congrArg (fun v => v.1) (hA hlt)
    exact ⟨h2, fireBullet_of_reloading _ h2⟩
  · exact hB2


theorem reload_completes_after_reloadTime_witness :
    reloadWorld.bulletsLeft = 10 ∧
    (keyboardDown (keyCode 'r') reloadWorld).reloadTimer = 1.5 ∧
    (runFrames samplePlatform [(10, 0.75, 0)]
      (keyboardDown (keyCode 'r') reloadWorld)).reloading = true ∧
    (runFrames samplePlatform [(10, 0.75, 0), (10.75, 0.75, 0)]
      (keyboardDown (keyCode 'r') reloadWorld)).bulletsLeft = 30 :=
  have h := reload_completes_after_reloadTime samplePlatform reloadWorld (keyCode 'r')
    (Or.inl rfl) (by decide!) (by decide!) (by decide!)
  ⟨by decide!, h.2.1,
    ((h.2.2.2 [(10, 0.75, 0)] (by decide!) ⟨by decide!, trivial⟩).1 (by decide!)).1,
    ((h.2.2.2 [(10, 0.75, 0), (10.75, 0.75, 0)] (by decide!)
      ⟨by decide!, by decide!, trivial⟩).2 (by decide!)).2⟩

/-! witnesses for the pool theorems -/

theorem fireBullet_success_witness :
    reloadWorld.bulletsLeft = 10 ∧ (fireBullet reloadWorld).bulletsLeft = 9 ∧
    (fireBullet reloadWorld).bullets.countP (fun b => b.active) = 1 :=
  have h := fireBullet_success reloadWorld (by decide!) (by decide!) (by decide!)
    ⟨freeBullet, by decide!, rfl⟩
  ⟨by decide!, by
    obtain ⟨i, _, _, heq, _⟩ := h
    rw [heq]
    show reloadWorld.bulletsLeft - 1 = 9
    decide!, by
    obtain ⟨i, _, _, _, hcount⟩ := h
    rw [hcount]
    decide!⟩

theorem fireBullet_rejected_witness :
    overWorld.gameOver = true ∧ fireBullet overWorld = overWorld :=
  ⟨by decide!, fireBullet_rejected overWorld (Or.inl (by decide!))⟩

theorem reload_request_idempotent_witness :
    overWorld.reloading = true ∧
    (keyboardDown (keyCode 'r') overWorld).reloadTimer = overWorld.reloadTimer :=
  ⟨by decide!, (reload_request_idempotent overWorld (keyCode 'r') (Or.inl rfl) (by decide!)).2.1⟩

/-! enemy records through the passes -/

theorem enemiesLoop_all (M : Platform) (t dt : ℚ) (P : Enemy → Prop)
    (hstep : ∀ e w, P e → P (enemyUpdate M t dt e w).1) (es : List Enemy) (w : World)
    (h : ∀ e ∈ es, P e) : ∀ e ∈ (enemiesLoop M t dt es w).1, P e := by
  induction es generalizing w with
  | nil => intro e he; cases he
  | cons e0 es ih =>
    rw [enemiesLoop_cons]
    intro e he
    rcases List.mem_cons.mp he with rfl | he
    · exact hstep e0 w (h e0 (List.mem_cons_self e0 es))
    · exact ih _ (fun x hx => h x (List.mem_cons_of_mem e0 hx)) e he

theorem respawnLoop_all (M : Platform) (dt : ℚ) (P : Enemy → Prop)
    (hstep : ∀ e w, P e → P (respawnEnemy M dt e w).1) (es : List Enemy) (w : World)
    (h : ∀ e ∈ es, P e) : ∀ e ∈ (respawnLoop M dt es w).1, P e := by
  induction es generalizing w with
  | nil => intro e he; cases he
  | cons e0 es ih =>
    rw [respawnLoop_cons]
    intro e he
    rcases List.mem_cons.mp he with rfl | he
    · exact hstep e0 w (h e0 (List.mem_cons_self e0 es))
    · exact ih _ (fun x hx => h x (List.mem_cons_of_mem e0 hx)) e he

theorem hitEnemies_all (M : Platform) (P : Enemy → Prop)
    (hstep : ∀ e b w, P e → P (hitEnemy M e b w).1) (es : List Enemy) (b : Bullet) (w : World)
    (h : ∀ e ∈ es, P e) : ∀ e ∈ (hitEnemies M es b w).1, P e := by
  induction es generalizing b w with
  | nil => intro e he; cases he
  | cons e0 es ih =>
    rw [hitEnemies_cons]
    intro e he
    rcases List.mem_cons.mp he with rfl | he
    · exact hstep e0 b w (h e0 (List.mem_cons_self e0 es))
    · exact ih _ _ (fun x hx => h x (List.mem_cons_of_mem e0 hx)) e he

theorem hitPlayer_enemies (M : Platform) (b : Bullet) (w : World) :
    (hitPlayer M b w).2.enemies = w.enemies := by
  obtain ⟨h, f, g, h1⟩ := hitPlayer_frame M b w
  rw [h1]

theorem collideBullet_enemies (M : Platform) (b : Bullet) (w : World) :
    (collideBullet M b w).2.enemies =
      if b.active = false then w.enemies else
      if (hitPlayer M b w).1.owner = 0 then
        (hitEnemies M w.enemies (hitPlayer M b w).1 (hitPlayer M b w).2).1
      else w.enemies := by
  rw [collideBullet_eq]
  split_ifs
  · rfl
  · simp only [hitPlayer_enemies]
  · exact hitPlayer_enemies M b w

theorem collideLoop_all (M : Platform) (P : Enemy → Prop)
    (hstep : ∀ e b w, P e → P (hitEnemy M e b w).1) (bs : List Bullet) (w : World)
    (h : ∀ e ∈ w.enemies, P e) : ∀ e ∈ (collideLoop M bs w).2.enemies, P e := by
  induction bs generalizing w with
  | nil => exact h
  | cons b bs ih =>
    rw [collideLoop_cons]
    apply ih
    rw [collideBullet_enemies]
    split_ifs
    · exact h
    · exact hitEnemies_all M P hstep _ _ _ h
    · exact h

theorem collisions_enemies (M : Platform) (w : World) :
    (collisions M w).enemies = (collideLoop M w.bullets w).2.enemies := rfl

theorem simulate_all (M : Platform) (t dt : ℚ) (mod : Nat) (P : Enemy → Prop)
    (hai : ∀ e w, P e → P (enemyUpdate M t dt e w).1)
    (hre : ∀ e w, P e → P (respawnEnemy M dt e w).1)
    (hhit : ∀ e b w, P e → P (hitEnemy M e b w).1) (w : World)
    (h : ∀ e ∈ w.enemies, P e) : ∀ e ∈ (simulate M t dt mod w).enemies, P e := by
  rw [simulate_eq, collisions_enemies]
  apply collideLoop_all M P hhit
  rw [respawnPass_eq]
  apply respawnLoop_all M dt P hre
  rw [enemiesPass_eq]
  apply enemiesLoop_all M t dt P hai
  show ∀ e ∈ (reloadStep dt (jumpGravity M dt (cameraMovement dt mod w))).enemies, P e
  rw [(reloadStep_keeps dt _).2.2, (jumpGravity_keeps M dt _).2.2, (cameraMovement_keeps dt mod w).2.2]
  exact h

theorem frame_enemies (M : Platform) (t dt : ℚ) (mod : Nat) (w : World) :
    (frame M t dt mod w).enemies =
      (if w.gameOver = false then simulate M t dt mod w else w).enemies := by
  obtain ⟨cf, cr, cu, df, jf, h⟩ := frame_frame M t dt mod w
  rw [h]

/-! enemy health -/

theorem enemySense_keeps (M : Platform) (t dt : ℚ) (c : Vec3) (e : Enemy) :
    (enemySense M t dt c e).health = e.health ∧
    (enemySense M t dt c e).deathTimer = e.deathTimer ∧
    (enemySense M t dt c e).active = e.active ∧
    (enemySense M t dt c e).pos = e.pos := by
  unfold enemySense
  simp only []
  split_ifs <;> exact ⟨rfl, rfl, rfl, rfl⟩

theorem enemyTurn_keeps (M : Platform) (t : ℚ) (e : Enemy) (w : World) :
    (enemyTurn M t e w).1.health = e.health ∧
    (enemyTurn M t e w).1.deathTimer = e.deathTimer ∧
    (enemyTurn M t e w).1.active = e.active ∧
    (enemyTurn M t e w).1.pos = e.pos := by
  unfold enemyTurn
  simp only [rand]
  split_ifs <;> exact ⟨rfl, rfl, rfl, rfl⟩

theorem enemyMove_keeps (M : Platform) (dt : ℚ) (e : Enemy) (w : World) :
    (enemyMove M dt e w).1.health = e.health ∧
    (enemyMove M dt e w).1.deathTimer = e.deathTimer ∧
    (enemyMove M dt e w).1.active = e.active := by
  unfold enemyMove
  simp only [rand]
  split_ifs <;> exact ⟨rfl, rfl, rfl⟩

theorem enemyShoot_keeps (M : Platform) (dt : ℚ) (e : Enemy) (w : World) :
    (enemyShoot M dt e w).1.health = e.health ∧
    (enemyShoot M dt e w).1.deathTimer = e.deathTimer ∧
    (enemyShoot M dt e w).1.active = e.active ∧
    (enemyShoot M dt e w).1.pos = e.pos := by
  unfold enemyShoot
  simp only [rand]
  split_ifs
  · cases firstFreeBullet w.bullets <;> exact ⟨rfl, rfl, rfl, rfl⟩
  · exact ⟨rfl, rfl, rfl, rfl⟩

theorem enemyUpdate_keeps (M : Platform) (t dt : ℚ) (e : Enemy) (w : World) :
    (enemyUpdate M t dt e w).1.health = e.health ∧
    (enemyUpdate M t dt e w).1.deathTimer = e.deathTimer ∧
    (enemyUpdate M t dt e w).1.active = e.active := by
  by_cases hd : e.active = false ∨ e.deathTimer > 0
  · unfold enemyUpdate
    rw [if_pos hd]
    exact ⟨rfl, rfl, rfl⟩
  · rw [enemyUpdate_alive M t dt e w hd]
    have h1 := enemySense_keeps M t dt w.camPos e
    generalize enemySense M t dt w.camPos e = e1 at *
    have h2 := enemyTurn_keeps M t e1 w
    generalize enemyTurn M t e1 w = r2 at *
    have h3 := enemyMove_keeps M dt r2.1 r2.2
    generalize enemyMove M dt r2.1 r2.2 = r3 at *
    have h4 := enemyShoot_keeps M dt r3.1 r3.2
    exact ⟨by rw [h4.1, h3.1, h2.1, h1.1], by rw [h4.2.1, h3.2.1, h2.2.1, h1.2.1],
      by rw [h4.2.2.1, h3.2.2, h2.2.2.1, h1.2.2.1]⟩

theorem enemyUpdate_healthOk (M : Platform) (t dt : ℚ) (e : Enemy) (w : World)
    (h : healthOk e) : healthOk (enemyUpdate M t dt e w).1 := by
  unfold healthOk
  rw [(enemyUpdate_keeps M t dt e w).1, (enemyUpdate_keeps M t dt e w).2.1]
  exact h

theorem respawnEnemy_healthOk (M : Platform) (dt : ℚ) (e : Enemy) (w : World)
    (h : healthOk e) : healthOk (respawnEnemy M dt e w).1 := by
  unfold respawnEnemy
  simp only [rand]
  split_ifs with h1 h2
  · exact ⟨le_refl (100 : ℚ), Or.inl (by norm_num)⟩
  · have h3 : 0 < e.deathTimer - dt := lt_of_not_ge h2
    refine ⟨h.1, ?_⟩
    rcases h.2 with h4 | h4
    · exact Or.inl h4
    · exact Or.inr ⟨h4.1, h3⟩
  · exact h

theorem hitEnemy_healthOk (M : Platform) (e : Enemy) (b : Bullet) (w : World)
    (h : healthOk e) : healthOk (hitEnemy M e b w).1 := by
  unfold hitEnemy
  simp only []
  split_ifs with h1 h2 h3
  · exact h
  · obtain ⟨hle, hlow⟩ := h
    have halive : ¬ 0 < e.deathTimer := fun hd => h1 (Or.inr hd)
    have h0 : 0 ≤ e.health := by
      rcases hlow with h4 | h4
      · exact h4
      · exact absurd h4.2 halive
    refine ⟨?_, Or.inr ⟨?_, ?_⟩⟩
    · show e.health - 34 ≤ 100
      linarith
    · show -34 ≤ e.health - 34
      linarith
    · show (0 : ℚ) < 2
      norm_num
  · obtain ⟨hle, hlow⟩ := h
    refine ⟨?_, Or.inl ?_⟩
    · show e.health - 34 ≤ 100
      linarith
    · have h4 : ¬ (e.health - 34 ≤ 0 ∧ e.deathTimer ≤ 0) := h3
      have halive : e.deathTimer ≤ 0 := le_of_not_gt (fun hd => h1 (Or.inr hd))
      have h5 : ¬ e.health - 34 ≤ 0 := fun h6 => h4 ⟨h6, halive⟩
      show 0 ≤ e.health - 34
      linarith
  · exact h

/-- C8, amended. From a state in which every enemy has health in [0, 100], a frame
(with any `dt`, in particular the frame `display` runs) leaves every enemy with
health in [-34, 100]: a killing hit subtracts 34 without clamping.  Health below 0
occurs only on an enemy whose death countdown is running. -/
theorem enemy_health_bounds (M : Platform) (t dt : ℚ) (mod : Nat) (w w1 : World)
    (h : ∀ e ∈ w.enemies, 0 ≤ e.health ∧ e.health ≤ 100)
    (hstep : w1 = frame M t dt mod w ∨ w1 = display M t mod w) :
    ∀ e ∈ w1.enemies, -34 ≤ e.health ∧ e.health ≤ 100 ∧ (e.health < 0 → 0 < e.deathTimer) := by
  have hok : ∀ e ∈ w.enemies, healthOk e := fun e he => ⟨(h e he).2, Or.inl (h e he).1⟩
  have key : ∀ (d : ℚ) (w0 : World), w0.enemies = w.enemies →
      ∀ e ∈ (frame M t d mod w0).enemies, healthOk e := by
    intro d w0 h0
    rw [frame_enemies]
    split_ifs
    · apply simulate_all M t d mod healthOk (enemyUpdate_healthOk M t d)
        (respawnEnemy_healthOk M d) (hitEnemy_healthOk M)
      rw [h0]
      exact hok
    · rw [h0]
      exact hok
  have hall : ∀ e ∈ w1.enemies, healthOk e := by
    rcases hstep with h1 | h1
    · rw [h1]
      exact key dt w rfl
    · rw [h1]
      exact key _ { w with lastTime := t } rfl
  intro e he
  obtain ⟨hle, hlow⟩ := hall e he
  rcases hlow with h0 | ⟨h34, hd⟩
  · exact ⟨by linarith, hle, fun hneg => absurd h0 (not_le.mpr hneg)⟩
  · exact ⟨h34, hle, fun _ => hd⟩

/-! the collision pass, enemy by enemy -/

theorem hitEnemy_fst (M : Platform) (e : Enemy) (b : Bullet) (w : World) :
    (hitEnemy M e b w).1 = struck M e b := by
  unfold hitEnemy struck
  simp only []
  split_ifs <;> rfl

theorem hitEnemy_bullet (M : Platform) (e : Enemy) (b : Bullet) (w : World) :
    (hitEnemy M e b w).2.1.pos = b.pos ∧ (hitEnemy M e b w).2.1.owner = b.owner := by
  unfold hitEnemy
  simp only []
  split_ifs <;> exact ⟨rfl, rfl⟩

theorem struck_congr (M : Platform) (e : Enemy) (b b1 : Bullet) (h : b1.pos = b.pos) :
    struck M e b1 = struck M e b := by
  unfold struck bulletInEnemy
  rw [h]

theorem hitEnemies_fst (M : Platform) (es : List Enemy) (b : Bullet) (w : World) :
    (hitEnemies M es b w).1 = es.map (fun e => struck M e b) := by
  induction es generalizing b w with
  | nil => rfl
  | cons e es ih =>
    rw [hitEnemies_cons]
    simp only [List.map_cons]
    rw [hitEnemy_fst, ih]
    congr 1
    apply List.map_congr_left
    intro x _
    exact struck_congr M x b _ (hitEnemy_bullet M e b w).1

theorem hitPlayer_bullet (M : Platform) (b : Bullet) (w : World) :
    (hitPlayer M b w).1.pos = b.pos ∧ (hitPlayer M b w).1.owner = b.owner := by
  unfold hitPlayer
  simp only []
  split_ifs <;> exact ⟨rfl, rfl⟩

theorem collideBullet_enemies_map (M : Platform) (b : Bullet) (w : World) :
    (collideBullet M b w).2.enemies = w.enemies.map (strike M b) := by
  rw [collideBullet_enemies]
  have hid : w.enemies = w.enemies.map (fun e => e) := (List.map_id' w.enemies).symm
  by_cases ha : b.active = false
  · rw [if_pos ha]
    have : strike M b = fun e => e := by
      funext e
      unfold strike
      rw [if_neg (by simp [ha])]
    rw [this]
    exact hid
  · rw [if_neg ha, (hitPlayer_bullet M b w).2]
    have ha1 : b.active = true := by simpa using ha
    by_cases ho : b.owner = 0
    · rw [if_pos ho, hitEnemies_fst]
      apply List.map_congr_left
      intro e _
      unfold strike
      rw [if_pos ⟨ha1, ho⟩]
      exact struck_congr M e b _ (hitPlayer_bullet M b w).1
    · rw [if_neg ho]
      have : strike M b = fun e => e := by
        funext e
        unfold strike
        rw [if_neg (fun h => ho h.2)]
      rw [this]
      exact hid

theorem collideLoop_enemies_map (M : Platform) (bs : List Bullet) (w : World) :
    (collideLoop M bs w).2.enemies =
      w.enemies.map (fun e => bs.foldl (fun e b => strike M b e) e) := by
  induction bs generalizing w with
  | nil => simp [collideLoop]
  | cons b bs ih =>
    rw [collideLoop_cons]
    simp only []
    rw [ih, collideBullet_enemies_map, List.map_map]
    rfl

theorem struck_dead (M : Platform) (e : Enemy) (b : Bullet) (h : 0 < e.deathTimer) :
    struck M e b = e := by
  unfold struck
  rw [if_pos (Or.inr h)]

theorem strike_dead (M : Platform) (e : Enemy) (b : Bullet) (h : 0 < e.deathTimer) :
    strike M b e = e := by
  unfold strike
  split_ifs
  · exact struck_dead M e b h
  · rfl

theorem foldl_strike_dead (M : Platform) (bs : List Bullet) (e : Enemy) (h : 0 < e.deathTimer) :
    bs.foldl (fun e b => strike M b e) e = e := by
  induction bs with
  | nil => rfl
  | cons b bs ih =>
    rw [List.foldl_cons, strike_dead M e b h]
    exact ih

theorem foldl_strike_kill (M : Platform) (bs : List Bullet) (e : Enemy)
    (ha : e.active = true) (hd : e.deathTimer ≤ 0) (hh : e.health ≤ 34)
    (hb : ∃ b ∈ bs, b.active = true ∧ b.owner = 0 ∧ bulletInEnemy M e b = true) :
    bs.foldl (fun e b => strike M b e) e =
      { e with flashTimer := 0.25, health := e.health - 34, deathTimer := 2 } := by
  induction bs with
  | nil =>
    obtain ⟨b, hb, _⟩ := hb
    cases hb
  | cons b bs ih =>
    rw [List.foldl_cons]
    have halive : ¬(e.active = false ∨ e.deathTimer > 0) := by
      rintro (h | h)
      · rw [ha] at h
        cases h
      · exact absurd h (not_lt.mpr hd)
    by_cases hit : b.active = true ∧ b.owner = 0 ∧ bulletInEnemy M e b = true
    · have h1 : strike M b e =
          { e with flashTimer := 0.25, health := e.health - 34, deathTimer := 2 } := by
        unfold strike struck
        rw [if_pos ⟨hit.1, hit.2.1⟩, if_neg halive, if_pos hit.2.2,
          if_pos ⟨by linarith, hd⟩]
      rw [h1]
      apply foldl_strike_dead
      show (0 : ℚ) < 2
      norm_num
    · have h1 : strike M b e = e := by
        unfold strike struck
        by_cases h2 : b.active = true ∧ b.owner = 0
        · have h3 : ¬ bulletInEnemy M e b = true := fun h => hit ⟨h2.1, h2.2, h⟩
          rw [if_pos h2, if_neg halive, if_neg h3]
        · rw [if_neg h2]
      rw [h1]
      apply ih
      obtain ⟨b1, hb1, hrest⟩ := hb
      rcases List.mem_cons.mp hb1 with rfl | hmem
      · exact absurd hrest hit
      · exact ⟨b1, hmem, hrest⟩

/-! the score -/

theorem kills_cons (e e1 : Enemy) (es es1 : List Enemy) :
    kills (e :: es) (e1 :: es1) =
      (if e.deathTimer ≤ 0 ∧ 0 < e1.deathTimer then 1 else 0) + kills es es1 := rfl

theorem kills_map_id (es : List Enemy) (g : Enemy → Enemy) (hg : ∀ e ∈ es, g e = e) :
    kills es (es.map g) = 0 := by
  induction es with
  | nil => rfl
  | cons e es ih =>
    rw [List.map_cons, kills_cons, ih (fun x hx => hg x (List.mem_cons_of_mem e hx)),
      hg e (List.mem_cons_self e es)]
    have : ¬(e.deathTimer ≤ 0 ∧ 0 < e.deathTimer) := fun h => absurd h.2 (not_lt.mpr h.1)
    rw [if_neg this]

theorem kills_map_trans (es : List Enemy) (g1 g2 : Enemy → Enemy)
    (h1 : ∀ e, 0 < e.deathTimer → g1 e = e) (h2 : ∀ e, 0 < e.deathTimer → g2 e = e) :
    kills es (es.map (fun e => g2 (g1 e))) =
      kills es (es.map g1) + kills (es.map g1) ((es.map g1).map g2) := by
  induction es with
  | nil => rfl
  | cons e es ih =>
    simp only [List.map_cons, kills_cons, ih]
    have key : (if e.deathTimer ≤ 0 ∧ 0 < (g2 (g1 e)).deathTimer then 1 else 0) =
        (if e.deathTimer ≤ 0 ∧ 0 < (g1 e).deathTimer then 1 else 0) +
        (if (g1 e).deathTimer ≤ 0 ∧ 0 < (g2 (g1 e)).deathTimer then 1 else 0) := by
      by_cases hd0 : 0 < e.deathTimer
      · have e1 := h1 e hd0
        have e2 : g2 (g1 e) = e := by rw [e1]; exact h2 e hd0
        rw [e2, e1]
        have : ¬(e.deathTimer ≤ 0 ∧ 0 < e.deathTimer) := fun h => absurd h.2 (not_lt.mpr h.1)
        rw [if_neg this]
      · have hle : e.deathTimer ≤ 0 := le_of_not_gt hd0
        by_cases hd1 : 0 < (g1 e).deathTimer
        · have e2 := h2 (g1 e) hd1
          rw [e2]
          have : ¬((g1 e).deathTimer ≤ 0 ∧ 0 < (g1 e).deathTimer) :=
            fun h => absurd h.2 (not_lt.mpr h.1)
          rw [if_neg this, if_pos ⟨hle, hd1⟩]
        · have hle1 : (g1 e).deathTimer ≤ 0 := le_of_not_gt hd1
          have : ¬(e.deathTimer ≤ 0 ∧ 0 < (g1 e).deathTimer) := fun h => hd1 h.2
          rw [if_neg this, Nat.zero_add]
          by_cases hd2 : 0 < (g2 (g1 e)).deathTimer
          · rw [if_pos ⟨hle, hd2⟩, if_pos ⟨hle1, hd2⟩]
          · rw [if_neg (fun h => hd2 h.2), if_neg (fun h => hd2 h.2)]
    rw [key]
    omega

theorem spawnParticle_score (M : Platform) (p : Vec3) (w : World) :
    (spawnParticle M p w).score = w.score := by
  obtain ⟨ps, s, h⟩ := spawnParticle_frame M p w
  rw [h]

theorem not_alive_and_dead (e : Enemy) : ¬(e.deathTimer ≤ 0 ∧ 0 < e.deathTimer) :=
  fun h => absurd h.2 (not_lt.mpr h.1)

theorem hitEnemy_score (M : Platform) (e : Enemy) (b : Bullet) (w : World) :
    (hitEnemy M e b w).2.2.score = w.score + 100 * (kills [e] [struck M e b] : Nat) := by
  have hk : kills [e] [struck M e b] =
      (if e.deathTimer ≤ 0 ∧ 0 < (struck M e b).deathTimer then 1 else 0) := rfl
  rw [hk]
  by_cases h1 : e.active = false ∨ e.deathTimer > 0
  · have hs : struck M e b = e := by unfold struck; rw [if_pos h1]
    have hh : hitEnemy M e b w = (e, b, w) := by unfold hitEnemy; rw [if_pos h1]
    rw [hs, hh, if_neg (not_alive_and_dead e)]
    simp
  · by_cases h2 : bulletInEnemy M e b = true
    · by_cases h3 : e.health - 34 ≤ 0 ∧ e.deathTimer ≤ 0
      · have hs : struck M e b =
            { e with flashTimer := 0.25, health := e.health - 34, deathTimer := 2 } := by
          unfold struck
          rw [if_neg h1, if_pos h2, if_pos h3]
        have hh : (hitEnemy M e b w).2.2.score = (spawnParticle M e.pos w).score + 100 := by
          unfold hitEnemy
          rw [if_neg h1, if_pos h2]
          simp only []
          rw [if_pos h3]
        rw [hs, hh, spawnParticle_score, if_pos ⟨h3.2, by show (0 : ℚ) < 2; norm_num⟩]
        simp
      · have hs : struck M e b = { e with flashTimer := 0.25, health := e.health - 34 } := by
          unfold struck
          rw [if_neg h1, if_pos h2, if_neg h3]
        have hh : (hitEnemy M e b w).2.2.score = (spawnParticle M e.pos w).score := by
          unfold hitEnemy
          rw [if_neg h1, if_pos h2]
          simp only []
          rw [if_neg h3]
        rw [hs, hh, spawnParticle_score, if_neg (not_alive_and_dead e)]
        simp
    · have hs : struck M e b = e := by unfold struck; rw [if_neg h1, if_neg h2]
      have hh : hitEnemy M e b w = (e, b, w) := by unfold hitEnemy; rw [if_neg h1, if_neg h2]
      rw [hs, hh, if_neg (not_alive_and_dead e)]
      simp

theorem hitEnemies_score (M : Platform) (es : List Enemy) (b : Bullet) (w : World) :
    (hitEnemies M es b w).2.2.score =
      w.score + 100 * (kills es (es.map (fun e => struck M e b)) : Nat) := by
  induction es generalizing b w with
  | nil => simp [hitEnemies, kills]
  | cons e es ih =>
    rw [hitEnemies_cons]
    simp only []
    rw [ih, hitEnemy_score, List.map_cons, kills_cons]
    have hc : es.map (fun x => struck M x (hitEnemy M e b w).2.1) =
        es.map (fun x => struck M x b) :=
      List.map_congr_left (fun x _ => struck_congr M x b _ (hitEnemy_bullet M e b w).1)
    have hk : kills ([] : List Enemy) [] = 0 := rfl
    rw [hc, hk, kills_cons]
    push_cast
    ring

theorem hitPlayer_score (M : Platform) (b : Bullet) (w : World) :
    (hitPlayer M b w).2.score = w.score := by
  obtain ⟨h, f, g, h1⟩ := hitPlayer_frame M b w
  rw [h1]

theorem collideBullet_score (M : Platform) (b : Bullet) (w : World) :
    (collideBullet M b w).2.score =
      w.score + 100 * (kills w.enemies (w.enemies.map (strike M b)) : Nat) := by
  by_cases hit : b.active = true ∧ b.owner = 0
  · have ha : ¬ b.active = false := by simp [hit.1]
    have hs : w.enemies.map (strike M b) = w.enemies.map (fun e => struck M e b) := by
      apply List.map_congr_left
      intro e _
      unfold strike
      rw [if_pos hit]
    have hc : w.enemies.map (fun e => struck M e (hitPlayer M b w).1) =
        w.enemies.map (fun e => struck M e b) :=
      List.map_congr_left (fun x _ => struck_congr M x b _ (hitPlayer_bullet M b w).1)
    rw [collideBullet_eq, if_neg ha, if_pos (by rw [(hitPlayer_bullet M b w).2]; exact hit.2)]
    simp only []
    rw [hitEnemies_score, hitPlayer_score, hitPlayer_enemies, hc, hs]
  · have hs : kills w.enemies (w.enemies.map (strike M b)) = 0 := by
      apply kills_map_id
      intro e _
      unfold strike
      rw [if_neg hit]
    rw [hs, collideBullet_eq]
    by_cases ha : b.active = false
    · rw [if_pos ha]
      simp
    · have ha1 : b.active = true := by simpa using ha
      have ho : ¬ (hitPlayer M b w).1.owner = 0 := by
        rw [(hitPlayer_bullet M b w).2]
        exact fun h => hit ⟨ha1, h⟩
      rw [if_neg ha, if_neg ho, hitPlayer_score]
      simp

theorem collideLoop_score (M : Platform) (bs : List Bullet) (w : World) :
    (collideLoop M bs w).2.score =
      w.score + 100 * (kills w.enemies (collideLoop M bs w).2.enemies : Nat) := by
  induction bs generalizing w with
  | nil =>
    have h : kills w.enemies w.enemies = 0 := by
      have := kills_map_id w.enemies (fun e => e) (fun _ _ => rfl)
      rwa [List.map_id'] at this
    show w.score = w.score + 100 * (kills w.enemies w.enemies : Nat)
    rw [h]
    simp
  | cons b bs ih =>
    rw [collideLoop_cons]
    simp only []
    rw [ih, collideBullet_score, collideLoop_enemies_map, collideBullet_enemies_map]
    have ht := kills_map_trans w.enemies (strike M b)
      (fun e => bs.foldl (fun e b => strike M b e) e)
      (fun e h => strike_dead M e b h) (fun e h => foldl_strike_dead M bs e h)
    rw [List.map_map] at ht ⊢
    have hcomp : ((fun e => List.foldl (fun e b => strike M b e) e bs) ∘ strike M b) =
        fun e => List.foldl (fun e b => strike M b e) (strike M b e) bs := rfl
    rw [hcomp] at ht ⊢
    have ht2 : kills w.enemies
        (List.map (fun e => List.foldl (fun e b => strike M b e) (strike M b e) bs) w.enemies) =
        kills w.enemies (List.map (strike M b) w.enemies) +
          kills (List.map (strike M b) w.enemies)
            (List.map (fun e => List.foldl (fun e b => strike M b e) (strike M b e) bs)
              w.enemies) := ht
    rw [ht2]
    push_cast
    ring

theorem collisions_score (M : Platform) (w : World) :
    (collisions M w).score = w.score + 100 * (kills w.enemies (collisions M w).enemies : Nat) :=
  collideLoop_score M w.bullets w

/-! the bullets -/

theorem takesHit_congr (M : Platform) (e : Enemy) (b b1 : Bullet) (h : b1.pos = b.pos) :
    takesHit M e b1 = takesHit M e b := by
  unfold takesHit bulletInEnemy
  rw [h]

theorem hitEnemy_snd (M : Platform) (e : Enemy) (b : Bullet) (w : World) :
    (hitEnemy M e b w).2.1 = if takesHit M e b = true then { b with active := false } else b := by
  unfold hitEnemy takesHit
  by_cases h1 : e.active = false ∨ e.deathTimer > 0
  · rw [if_pos h1]
    simp [h1]
  · rw [if_neg h1]
    by_cases h2 : bulletInEnemy M e b = true
    · rw [if_pos h2]
      simp only []
      have : (decide ¬(e.active = false ∨ e.deathTimer > 0) && bulletInEnemy M e b) = true := by
        simp [h1, h2]
      rw [if_pos this]
      split_ifs <;> rfl
    · rw [if_neg h2]
      have : ¬ (decide ¬(e.active = false ∨ e.deathTimer > 0) && bulletInEnemy M e b) = true := by
        simp [h2]
      rw [if_neg this]

theorem hitEnemies_snd (M : Platform) (es : List Enemy) (b : Bullet) (w : World) :
    (hitEnemies M es b w).2.1 =
      if es.any (fun e => takesHit M e b) = true then { b with active := false } else b := by
  induction es generalizing b w with
  | nil => rfl
  | cons e es ih =>
    rw [hitEnemies_cons]
    simp only []
    rw [ih, hitEnemy_snd, List.any_cons]
    by_cases h1 : takesHit M e b = true
    · rw [if_pos h1]
      have hc : (es.any fun x => takesHit M x { b with active := false }) =
          es.any fun x => takesHit M x b := by
        congr 1
      rw [hc, h1, Bool.true_or]
      by_cases hany : (es.any fun x => takesHit M x b) = true <;> simp [hany]
    · rw [if_neg h1]
      have h2 : takesHit M e b = false := by simpa using h1
      rw [h2, Bool.false_or]

theorem hitPlayer_fst (M : Platform) (b : Bullet) (w : World) :
    (hitPlayer M b w).1 =
      if b.owner = 1 ∧ bulletInPlayer M w.camPos b = true then { b with active := false }
      else b := by
  unfold hitPlayer
  by_cases h1 : b.owner = 1
  · by_cases h2 : bulletInPlayer M w.camPos b = true
    · simp only [h1, h2, if_true, and_self]
      split_ifs <;> rfl
    · simp only [h1, h2, if_true, and_false, if_false]
      simp
  · simp only [h1, if_false, false_and]

theorem collideBullet_fst (M : Platform) (b : Bullet) (w : World) :
    (collideBullet M b w).1 =
      if b.active = false then b
      else if b.owner = 0 then
        (if w.enemies.any (fun e => takesHit M e b) = true then { b with active := false } else b)
      else (hitPlayer M b w).1 := by
  rw [collideBullet_eq]
  by_cases ha : b.active = false
  · rw [if_pos ha, if_pos ha]
  · rw [if_neg ha, if_neg ha, (hitPlayer_bullet M b w).2]
    by_cases ho : b.owner = 0
    · rw [if_pos ho, if_pos ho]
      simp only []
      have hb : (hitPlayer M b w).1 = b := by
        rw [hitPlayer_fst, if_neg]
        rintro ⟨h1, _⟩
        rw [ho] at h1
        exact absurd h1 (by decide)
      rw [hitEnemies_snd, hitPlayer_enemies, hb]
    · rw [if_neg ho, if_neg ho]

/-! a dead enemy can be left out of the roster -/

theorem takesHit_dead (M : Platform) (e : Enemy) (b : Bullet) (h : 0 < e.deathTimer) :
    takesHit M e b = false := by
  unfold takesHit
  simp [h]

theorem any_eraseIdx_dead (M : Platform) (b : Bullet) (es : List Enemy) (j : Nat)
    (hdead : ∀ e, es[j]? = some e → 0 < e.deathTimer) :
    (es.eraseIdx j).any (fun e => takesHit M e b) = es.any (fun e => takesHit M e b) := by
  induction es generalizing j with
  | nil => rfl
  | cons e es ih =>
    cases j with
    | zero =>
      have hd : 0 < e.deathTimer := hdead e (by simp)
      simp [takesHit_dead M e b hd]
    | succ j =>
      have := ih j (fun x hx => hdead x (by simpa using hx))
      simp only [List.eraseIdx_cons_succ, List.any_cons, this]

theorem map_eraseIdx (g : Enemy → Enemy) (es : List Enemy) (j : Nat) :
    (es.eraseIdx j).map g = (es.map g).eraseIdx j := by
  induction es generalizing j with
  | nil => rfl
  | cons e es ih =>
    cases j with
    | zero => rfl
    | succ j => simp only [List.eraseIdx_cons_succ, List.map_cons, ih]

theorem kills_eraseIdx (g : Enemy → Enemy) (es : List Enemy) (j : Nat)
    (hdead : ∀ e, es[j]? = some e → 0 < e.deathTimer) :
    kills (es.eraseIdx j) ((es.map g).eraseIdx j) = kills es (es.map g) := by
  induction es generalizing j with
  | nil => rfl
  | cons e es ih =>
    cases j with
    | zero =>
      have hd : 0 < e.deathTimer := hdead e (by simp)
      have : ¬(e.deathTimer ≤ 0 ∧ 0 < (g e).deathTimer) := fun h => absurd hd (not_lt.mpr h.1)
      simp only [List.map_cons, List.eraseIdx_cons_zero, kills_cons, if_neg this, Nat.zero_add]
    | succ j =>
      have := ih j (fun x hx => hdead x (by simpa using hx))
      simp only [List.map_cons, List.eraseIdx_cons_succ, kills_cons, this]

theorem collideBullet_camPos (M : Platform) (b : Bullet) (w : World) :
    (collideBullet M b w).2.camPos = w.camPos := by
  obtain ⟨h, f, g, es, ps, s, sc, h1⟩ := collideBullet_frame M b w
  rw [h1]

theorem collideLoop_bullets_erase (M : Platform) (j : Nat) (bs : List Bullet) (w w2 : World)
    (hc : w2.camPos = w.camPos) (he : w2.enemies = w.enemies.eraseIdx j)
    (hdead : ∀ e, w.enemies[j]? = some e → 0 < e.deathTimer) :
    (collideLoop M bs w2).1 = (collideLoop M bs w).1 := by
  induction bs generalizing w w2 with
  | nil => rfl
  | cons b bs ih =>
    rw [collideLoop_cons, collideLoop_cons]
    simp only []
    have hb : (collideBullet M b w2).1 = (collideBullet M b w).1 := by
      rw [collideBullet_fst, collideBullet_fst, hitPlayer_fst, hitPlayer_fst, hc, he,
        any_eraseIdx_dead M b w.enemies j hdead]
    have hnext : (collideLoop M bs (collideBullet M b w2).2).1 =
        (collideLoop M bs (collideBullet M b w).2).1 := by
      apply ih
      · rw [collideBullet_camPos, collideBullet_camPos, hc]
      · rw [collideBullet_enemies_map, collideBullet_enemies_map, he, map_eraseIdx]
      · intro e1 h1
        rw [collideBullet_enemies_map, List.getElem?_map] at h1
        cases h0 : w.enemies[j]? with
        | none => rw [h0] at h1; cases h1
        | some e0 =>
          rw [h0] at h1
          have hd0 := hdead e0 h0
          simp only [Option.map_some', Option.some.injEq] at h1
          rw [← h1, strike_dead M e0 b hd0]
          exact hd0
    rw [hb, hnext]

theorem getElem?_foldl_dead (M : Platform) (bs : List Bullet) (es : List Enemy) (j : Nat)
    (e : Enemy) (h : es[j]? = some e) (hd : 0 < e.deathTimer) :
    (es.map (fun e => bs.foldl (fun e b => strike M b e) e))[j]? = some e := by
  rw [List.getElem?_map, h, Option.map_some', foldl_strike_dead M bs e hd]

theorem kills_split (g : Enemy → Enemy) (es : List Enemy) (j : Nat) (e : Enemy)
    (h : es[j]? = some e) :
    kills es (es.map g) =
      (if e.deathTimer ≤ 0 ∧ 0 < (g e).deathTimer then 1 else 0) +
        kills (es.eraseIdx j) ((es.map g).eraseIdx j) := by
  induction es generalizing j with
  | nil => simp at h
  | cons e0 es ih =>
    cases j with
    | zero =>
      have h0 : e0 = e := by simpa using h
      subst h0
      simp only [List.map_cons, List.eraseIdx_cons_zero, kills_cons]
    | succ j =>
      have := ih j (by simpa using h)
      simp only [List.map_cons, List.eraseIdx_cons_succ, kills_cons, this]
      omega

/-- C9. The death transition happens once per kill.  In the collision pass:
an alive enemy (active, no death countdown) with health in (0, 34] that has at
least one active player bullet inside its cylinder ends the pass with its health
lowered by 34 once (so at most 0) and `deathTimer = 2`, and the score has grown by
100 for it plus 100 for each other enemy that died in the pass, however many
bullets are inside it; overall the score grows by 100 per enemy that went from
alive to dead.  An enemy whose death countdown is running is left untouched: every
bullet's step against it is the identity, and the pass yields the same bullets and
the same score as it would with that enemy taken out of the roster. -/
theorem death_transition_once (M : Platform) (w : World) :
    (∀ (j : Nat) (e : Enemy), w.enemies[j]? = some e → e.active = true → e.deathTimer ≤ 0 →
      0 < e.health → e.health ≤ 34 →
      (∃ b ∈ w.bullets, b.active = true ∧ b.owner = 0 ∧ bulletInEnemy M e b = true) →
      (∃ e1, (collisions M w).enemies[j]? = some e1 ∧ e1.health = e.health - 34 ∧
        e1.health ≤ 0 ∧ e1.deathTimer = 2) ∧
      (collisions M w).score = w.score + 100 +
        100 * (kills (w.enemies.eraseIdx j) ((collisions M w).enemies.eraseIdx j) : Nat)) ∧
    (collisions M w).score = w.score + 100 * (kills w.enemies (collisions M w).enemies : Nat) ∧
    (∀ (j : Nat) (e : Enemy), w.enemies[j]? = some e → 0 < e.deathTimer →
      (collisions M w).enemies[j]? = some e ∧
      (∀ (b : Bullet) (w1 : World), hitEnemy M e b w1 = (e, b, w1)) ∧
      (collisions M { w with enemies := w.enemies.eraseIdx j }).bullets =
        (collisions M w).bullets ∧
      (collisions M { w with enemies := w.enemies.eraseIdx j }).score =
        (collisions M w).score) := by
  have henem : (collisions M w).enemies =
      w.enemies.map (fun e => w.bullets.foldl (fun e b => strike M b e) e) :=
    collideLoop_enemies_map M w.bullets w
  refine ⟨?_, collisions_score M w, ?_⟩
  · intro j e hj ha hd hpos hle hb
    have hk := foldl_strike_kill M w.bullets e ha hd hle hb
    constructor
    · refine ⟨{ e with flashTimer := 0.25, health := e.health - 34, deathTimer := 2 },
        ?_, rfl, ?_, rfl⟩
      · rw [henem, List.getElem?_map, hj, Option.map_some', hk]
      · show e.health - 34 ≤ 0
        linarith
    · rw [collisions_score, henem,
        kills_split (fun e => w.bullets.foldl (fun e b => strike M b e) e) w.enemies j e hj, hk,
        if_pos ⟨hd, by show (0 : ℚ) < 2; norm_num⟩]
      push_cast
      ring
  · intro j e hj hd
    refine ⟨?_, ?_, ?_, ?_⟩
    · rw [henem]
      exact getElem?_foldl_dead M w.bullets w.enemies j e hj hd
    · intro b w1
      unfold hitEnemy
      rw [if_pos (Or.inr hd)]
    · exact collideLoop_bullets_erase M j w.bullets w { w with enemies := w.enemies.eraseIdx j }
        rfl rfl (fun e0 h0 => by rw [hj] at h0; cases h0; exact hd)
    · rw [collisions_score, collisions_score]
      have h2 : (collisions M { w with enemies := w.enemies.eraseIdx j }).enemies =
          (w.enemies.eraseIdx j).map (fun e => w.bullets.foldl (fun e b => strike M b e) e) :=
        collideLoop_enemies_map M w.bullets { w with enemies := w.enemies.eraseIdx j }
      rw [h2, henem, map_eraseIdx]
      show w.score + _ = _
      rw [kills_eraseIdx _ w.enemies j (fun e0 h0 => by rw [hj] at h0; cases h0; exact hd)]

theorem death_transition_once_witness :
    (∃ e1, (collisions samplePlatform killWorld).enemies[0]? = some e1 ∧
      e1.health = 30 - 34 ∧ e1.health ≤ 0 ∧ e1.deathTimer = 2) ∧
    (collisions samplePlatform killWorld).score = killWorld.score + 100 * (1 : Nat) ∧
    (collisions samplePlatform killWorld).enemies[2]? = some deadEnemy :=
  have h := death_transition_once samplePlatform killWorld
  ⟨(h.1 0 (farEnemy 24 4.8 (-16) 30) rfl rfl (by decide!) (by decide!) (by decide!)
      ⟨arrivedBullet, by decide!, rfl, rfl, by decide!⟩).1,
    h.2.1.trans (by decide!),
    (h.2.2 2 deadEnemy rfl (by decide!)).1⟩

/-! evaluations at the sample inputs -/

/-- C1. The failing input: the player has 25 health, the game is not over, and two
enemy bullets reach the player's cylinder in the same frame.  The first hit brings
the health to 0 and raises game over; the second subtracts another 25, and the
clamp to 0 is skipped because it is guarded by `!gameOver`: the frame ends with
`playerHealth = -25`. -/
theorem playerHealth_negative_after_two_hits :
    (0 ≤ twoHitsWorld.playerHealth ∧ twoHitsWorld.playerHealth ≤ 100) ∧
    (twoHitsWorld.gameOver = true ↔ twoHitsWorld.playerHealth = 0) ∧
    (simulate samplePlatform 10 0.02 0 twoHitsWorld).playerHealth = -25 ∧
    (display samplePlatform 10 0 twoHitsWorld).playerHealth = -25 ∧
    (display samplePlatform 10 0 twoHitsWorld).gameOver = true := by
  decide!

/-- C8, counterexample. Every enemy of `woundedWorld` has health in [0, 100]; the
frame in which the player's bullet reaches the enemy that has 32 health left
leaves that enemy with health -2. -/
theorem enemy_health_not_clamped :
    (∀ e ∈ woundedWorld.enemies, 0 ≤ e.health ∧ e.health ≤ 100) ∧
    ¬ (∀ e ∈ (display samplePlatform 10 0 woundedWorld).enemies,
        0 ≤ e.health ∧ e.health ≤ 100) := by
  decide!

theorem enemy_health_bounds_witness :
    (∀ e ∈ woundedWorld.enemies, 0 ≤ e.health ∧ e.health ≤ 100) ∧
    ∀ e ∈ (display samplePlatform 10 0 woundedWorld).enemies,
      -34 ≤ e.health ∧ e.health ≤ 100 ∧ (e.health < 0 → 0 < e.deathTimer) :=
  ⟨by decide!,
    enemy_health_bounds samplePlatform 10 0 0 woundedWorld
      (display samplePlatform 10 0 woundedWorld) (by decide!) (Or.inr rfl)⟩

/-- C10. The failing input: at the start of a collision pass one active player
bullet is inside the cylinders of the first two enemies, both alive with 100
health.  The hit on the first enemy deactivates the bullet, but the loop over the
enemies goes on: the second enemy loses 34 health and gets its flash timer set as
well. -/
theorem bullet_damages_two_enemies :
    pierceWorld.bullets.countP (fun b => b.active) = 1 ∧
    pierceWorld.enemies.map (fun e => (e.health, e.flashTimer, e.deathTimer)) =
      [(100, 0, 0), (100, 0, 0), (-2, 0.25, 1.5), (100, 0, 0)] ∧
    pierceWorld.enemies.map (fun e => takesHit samplePlatform e arrivedBullet) =
      [true, true, false, false] ∧
    (collisions samplePlatform pierceWorld).enemies.map
        (fun e => (e.health, e.flashTimer, e.deathTimer)) =
      [(66, 0.25, 0), (66, 0.25, 0), (-2, 0.25, 1.5), (100, 0, 0)] := by
  decide!

/-! respawn -/

theorem respawnLoop_getElem? (M : Platform) (dt : ℚ) (es : List Enemy) (w : World) (j : Nat)
    (e : Enemy) (h : es[j]? = some e) :
    ∃ w1, (respawnLoop M dt es w).1[j]? = some (respawnEnemy M dt e w1).1 := by
  induction es generalizing w j with
  | nil => simp at h
  | cons e0 es ih =>
    rw [respawnLoop_cons]
    cases j with
    | zero =>
      have h0 : e0 = e := by simpa using h
      subst h0
      exact ⟨w, by simp⟩
    | succ j =>
      obtain ⟨w1, h1⟩ := ih (respawnEnemy M dt e0 w).2 j (by simpa using h)
      exact ⟨w1, by simpa using h1⟩

theorem respawnEnemy_expired (M : Platform) (dt : ℚ) (e : Enemy) (w : World)
    (hd : 0 < e.deathTimer) (hdt : e.deathTimer ≤ dt) :
    (respawnEnemy M dt e w).1.health = 100 ∧
    (respawnEnemy M dt e w).1.active = true ∧
    (respawnEnemy M dt e w).1.flashTimer = 0 ∧
    terrainSynced M (respawnEnemy M dt e w).1 ∧
    (respawnEnemy M dt e w).1.deathTimer = e.deathTimer - dt := by
  have h2 : e.deathTimer - dt ≤ 0 := by linarith
  unfold respawnEnemy terrainSynced
  simp only [rand]
  rw [if_pos hd, if_pos h2]
  exact ⟨rfl, rfl, rfl, rfl, rfl⟩

/-- C11, amended. An enemy whose death countdown is running and expires in this
frame (`0 < deathTimer ≤ dt`) leaves the respawn pass with health 100, active, flash
timer 0 and standing at eye height on the terrain at its new position; its
`deathTimer` is left at `deathTimer - dt`, which is at most 0 (alive by the code's
sign test) and is exactly 0 only when `dt` equals the remaining countdown. -/
theorem respawn_resets_enemy (M : Platform) (dt : ℚ) (w : World) (j : Nat) (e : Enemy)
    (hj : w.enemies[j]? = some e) (hd : 0 < e.deathTimer) (hdt : e.deathTimer ≤ dt) :
    ∃ e1, (respawnPass M dt w).enemies[j]? = some e1 ∧
      e1.health = 100 ∧ e1.active = true ∧ e1.flashTimer = 0 ∧
      e1.pos.y = terrainHeight M e1.pos.x e1.pos.z + 1.6 ∧
      e1.deathTimer = e.deathTimer - dt ∧ e1.deathTimer ≤ 0 ∧
      (e1.deathTimer = 0 ↔ dt = e.deathTimer) := by
  obtain ⟨w1, h1⟩ := respawnLoop_getElem? M dt w.enemies w j e hj
  obtain ⟨a, b, c, d, f⟩ := respawnEnemy_expired M dt e w1 hd hdt
  refine ⟨_, h1, a, b, c, d, f, ?_, ?_⟩
  · rw [f]
    linarith
  · rw [f]
    constructor
    · intro h
      linarith
    · intro h
      rw [h]
      ring

theorem respawn_resets_enemy_witness :
    ∃ e1, (respawnPass samplePlatform 0.02 expiringWorld).enemies[0]? = some e1 ∧
      e1.health = 100 ∧ e1.active = true ∧ e1.flashTimer = 0 ∧
      e1.pos.y = terrainHeight samplePlatform e1.pos.x e1.pos.z + 1.6 ∧
      e1.deathTimer = expiringEnemy.deathTimer - 0.02 ∧ e1.deathTimer ≤ 0 ∧
      (e1.deathTimer = 0 ↔ (0.02 : ℚ) = expiringEnemy.deathTimer) :=
  respawn_resets_enemy samplePlatform 0.02 expiringWorld 0 expiringEnemy rfl
    (by decide!) (by decide!)

/-- C11, counterexample. The first enemy of `expiringWorld` has 0.01 s of its death
countdown left; the respawn pass of a frame with `dt = 0.02` (the frame `display`
runs at `t = 10`) respawns it with health 100 and leaves `deathTimer = -0.01`, not
0. -/
theorem respawn_leaves_countdown_negative :
    expiringWorld.enemies[0]? = some expiringEnemy ∧
    0 < expiringEnemy.deathTimer ∧ expiringEnemy.deathTimer ≤ (0.02 : ℚ) ∧
    expiringWorld.gameOver = false ∧
    (respawnPass samplePlatform 0.02 expiringWorld).enemies.map
        (fun e => (e.health, e.active, e.deathTimer)) =
      [(100, true, -0.01), (-2, true, 1.48), (100, true, 0), (100, true, 0)] ∧
    (respawnPass samplePlatform 0.02 expiringWorld).enemies.map
        (fun e => decide (e.deathTimer = 0)) = [false, false, true, true] ∧
    (display samplePlatform 10 0 expiringWorld).enemies.map (fun e => e.deathTimer) =
      [-0.01, 1.48, 0, 0] := by
  decide!

/-! the magazine -/

theorem fireBullet_bulletsLeft (w : World) :
    (fireBullet w).bulletsLeft = w.bulletsLeft ∨
    (0 < w.bulletsLeft ∧ (fireBullet w).bulletsLeft = w.bulletsLeft - 1) := by
  unfold fireBullet
  by_cases hguard : w.reloading = true ∨ w.bulletsLeft ≤ 0 ∨ w.gameOver = true
  · rw [if_pos hguard]
    exact Or.inl rfl
  · rw [if_neg hguard]
    have hpos : 0 < w.bulletsLeft := by
      by_contra h
      exact hguard (Or.inr (Or.inl (not_lt.mp h)))
    cases firstFreeBullet w.bullets with
    | none => exact Or.inl rfl
    | some i => exact Or.inr ⟨hpos, rfl⟩

theorem fireBullet_magazine (w : World) (h : 0 ≤ w.bulletsLeft ∧ w.bulletsLeft ≤ 30) :
    0 ≤ (fireBullet w).bulletsLeft ∧ (fireBullet w).bulletsLeft ≤ 30 := by
  rcases fireBullet_bulletsLeft w with h1 | ⟨hpos, h1⟩
  · rw [h1]
    exact h
  · rw [h1]
    constructor
    · omega
    · omega

theorem frame_bulletsLeft (M : Platform) (t dt : ℚ) (mod : Nat) (w : World) :
    (frame M t dt mod w).bulletsLeft = w.bulletsLeft ∨ (frame M t dt mod w).bulletsLeft = 30 := by
  cases hg : w.gameOver with
  | true =>
    left
    exact congrArg (fun v => v.2.2) (frame_reloadState_over M t dt mod w hg)
  | false =>
    have h := frame_reloadState_live M t dt mod w hg
    rw [reloadState_reloadStep] at h
    have hb : (frame M t dt mod w).bulletsLeft = _ := congrArg (fun v => v.2.2) h
    split_ifs at hb
    · exact Or.inr hb
    · exact Or.inl hb
    · exact Or.inl hb

theorem frame_magazine (M : Platform) (t dt : ℚ) (mod : Nat) (w : World)
    (h : 0 ≤ w.bulletsLeft ∧ w.bulletsLeft ≤ 30) :
    0 ≤ (frame M t dt mod w).bulletsLeft ∧ (frame M t dt mod w).bulletsLeft ≤ 30 := by
  rcases frame_bulletsLeft M t dt mod w with h1 | h1
  · rw [h1]
    exact h
  · rw [h1]
    exact ⟨by decide, by decide⟩

theorem passiveMouse_bulletsLeft (M : Platform) (x y : Int) (w : World) :
    (passiveMouse M x y w).bulletsLeft = w.bulletsLeft := by
  unfold passiveMouse updateCameraVectors
  simp only []
  split_ifs <;> rfl

theorem keyboardDown_bulletsLeft (key : Nat) (w : World) :
    (keyboardDown key w).bulletsLeft = w.bulletsLeft := by
  unfold keyboardDown
  simp only []
  split_ifs <;> rfl

theorem event_magazine (M : Platform) (ev : Event) (w : World)
    (h : 0 ≤ w.bulletsLeft ∧ w.bulletsLeft ≤ 30) :
    0 ≤ (ev.apply M w).bulletsLeft ∧ (ev.apply M w).bulletsLeft ≤ 30 := by
  cases ev with
  | display t mod => exact frame_magazine M t _ mod _ h
  | passiveMouse x y =>
    show 0 ≤ (passiveMouse M x y w).bulletsLeft ∧ (passiveMouse M x y w).bulletsLeft ≤ 30
    rw [passiveMouse_bulletsLeft]
    exact h
  | keyboardDown k =>
    show 0 ≤ (keyboardDown k w).bulletsLeft ∧ (keyboardDown k w).bulletsLeft ≤ 30
    rw [keyboardDown_bulletsLeft]
    exact h
  | keyboardUp k => exact h
  | reshape width height => exact h
  | specialDown => exact h
  | mouseClick b st =>
    show 0 ≤ (mouseClick b st w).bulletsLeft ∧ (mouseClick b st w).bulletsLeft ≤ 30
    unfold mouseClick
    split_ifs
    · exact fireBullet_magazine w h
    · exact h

theorem action_magazine (M : Platform) (a : Action) (w : World)
    (h : 0 ≤ w.bulletsLeft ∧ w.bulletsLeft ≤ 30) :
    0 ≤ (a.apply M w).bulletsLeft ∧ (a.apply M w).bulletsLeft ≤ 30 := by
  cases a with
  | callback ev => exact event_magazine M ev w h
  | fire => exact fireBullet_magazine w h
  | frame t dt mod => exact frame_magazine M t dt mod w h

theorem perform_magazine (M : Platform) (acts : List Action) (w : World)
    (h : 0 ≤ w.bulletsLeft ∧ w.bulletsLeft ≤ 30) :
    0 ≤ (perform M acts w).bulletsLeft ∧ (perform M acts w).bulletsLeft ≤ 30 := by
  induction acts generalizing w with
  | nil => exact h
  | cons a acts ih => exact ih _ (action_magazine M a w h)

/-- C12. The magazine stays within 0..30: start-up leaves `bulletsLeft = 30` and
`reloading = false`, and after any sequence of callbacks (the reload key among
them), direct `fireBullet` calls and frames with arbitrary `dt`,
`0 ≤ bulletsLeft ≤ 30`; `fireBullet` never takes a non-negative magazine below 0;
and the frame in which a running reload expires sets `bulletsLeft` to exactly 30. -/
theorem magazine_bound (M : Platform) :
    (∀ (seed seedAfterRocks : Nat) (t0 : ℚ),
      (boot M seed seedAfterRocks t0).bulletsLeft = 30 ∧
      (boot M seed seedAfterRocks t0).reloading = false ∧
      ∀ acts : List Action,
        0 ≤ (perform M acts (boot M seed seedAfterRocks t0)).bulletsLeft ∧
        (perform M acts (boot M seed seedAfterRocks t0)).bulletsLeft ≤ 30) ∧
    (∀ w : World, 0 ≤ w.bulletsLeft → 0 ≤ (fireBullet w).bulletsLeft) ∧
    (∀ (w : World) (t dt : ℚ) (mod : Nat), w.gameOver = false → w.reloading = true →
      w.reloadTimer ≤ dt →
      (frame M t dt mod w).reloading = false ∧ (frame M t dt mod w).bulletsLeft = 30) := by
  refine ⟨?_, ?_, ?_⟩
  · intro seed seed2 t0
    obtain ⟨cf, cr, cu, es, h⟩ := boot_frame M seed seed2 t0
    have hb : (boot M seed seed2 t0).bulletsLeft = 30 := by rw [h]; rfl
    have hr : (boot M seed seed2 t0).reloading = false := by rw [h]; rfl
    refine ⟨hb, hr, ?_⟩
    intro acts
    apply perform_magazine
    rw [hb]
    exact ⟨by decide, by decide⟩
  · intro w h
    rcases fireBullet_bulletsLeft w with h1 | ⟨hpos, h1⟩
    · rw [h1]
      exact h
    · rw [h1]
      omega
  · intro w t dt mod hg hr ht
    have h := frame_reloadState_live M t dt mod w hg
    rw [reloadState_reloadStep, if_pos hr, if_pos (by linarith)] at h
    exact ⟨congrArg (fun v => v.1) h, congrArg (fun v => v.2.2) h⟩

theorem magazine_bound_witness :
    (perform samplePlatform
      [Action.fire, Action.callback (Event.keyboardDown (keyCode 'r')),
        Action.frame 1 0.75 0, Action.fire, Action.frame 1.75 0.75 0, Action.fire]
      (boot samplePlatform 1 2 0.5)).bulletsLeft ≤ 30 ∧
    0 ≤ (fireBullet overWorld).bulletsLeft :=
  ⟨(((magazine_bound samplePlatform).1 1 2 0.5).2.2 _).2,
    (magazine_bound samplePlatform).2.1 overWorld (by decide!)⟩

/-! perception -/

/-- C13, amended. `canSee` returns true exactly when the squared distance is at
most 625 and either the horizontal distance (as `sqrtf` returns it) is below 0.1,
in which case the look angle is not tested, or the magnitude of
`atan2f (to.y - from.y) horizDist`, converted to degrees with 3.14159, is strictly
below 60. -/
theorem canSee_iff (M : Platform) (src dst : Vec3) :
    canSee M src dst = true ↔
      (dst.x - src.x) * (dst.x - src.x) + (dst.y - src.y) * (dst.y - src.y) +
          (dst.z - src.z) * (dst.z - src.z) ≤ 625 ∧
      (M.sqrtf ((dst.x - src.x) * (dst.x - src.x) + (dst.z - src.z) * (dst.z - src.z)) < 0.1 ∨
        |M.atan2f (dst.y - src.y)
            (M.sqrtf ((dst.x - src.x) * (dst.x - src.x) + (dst.z - src.z) * (dst.z - src.z)))|
          * 180 / 3.14159 < 60) := by
  unfold canSee vecSub
  simp only []
  by_cases h1 : (dst.x - src.x) * (dst.x - src.x) + (dst.y - src.y) * (dst.y - src.y) +
      (dst.z - src.z) * (dst.z - src.z) > 625
  · rw [if_pos h1]
    constructor
    · intro h
      cases h
    · rintro ⟨h2, _⟩
      exact absurd h1 (not_lt.mpr h2)
  · rw [if_neg h1]
    have h1' := not_lt.mp h1
    by_cases h2 : M.sqrtf ((dst.x - src.x) * (dst.x - src.x) +
        (dst.z - src.z) * (dst.z - src.z)) < 0.1
    · rw [if_pos h2]
      exact ⟨fun _ => ⟨h1', Or.inl h2⟩, fun _ => rfl⟩
    · rw [if_neg h2]
      rw [decide_eq_true_iff]
      constructor
      · intro h
        exact ⟨h1', Or.inr h⟩
      · rintro ⟨_, h | h⟩
        · exact absurd h h2
        · exact h

/-- C13, counterexample. The player is 10 units straight above the enemy: the
squared distance is 100 and the look angle is a quarter turn, more than 60 degrees
(so the rule as specified says no), yet `canSee` returns true because the horizontal
distance 0 is below 0.1. -/
theorem canSee_straight_up :
    canSee samplePlatform { x := 0, y := 0, z := 0 } { x := 0, y := 10, z := 0 } = true ∧
    ¬ canSeeSpec samplePlatform { x := 0, y := 0, z := 0 } { x := 0, y := 10, z := 0 } ∧
    |samplePlatform.atan2f 10 (samplePlatform.sqrtf 0)| * 180 / 3.14159 > 90 := by
  refine ⟨by decide!, ?_, by decide!⟩
  unfold canSeeSpec
  decide!

/-! the player's motion -/

theorem jumpGravity_kinematics (M : Platform) (dt : ℚ) (w : World) :
    kinematics (jumpGravity M dt w) =
      if w.camPos.y +
          ((if w.keyDown (keyCode ' ') = true ∧ w.onGround = true then 5
            else w.verticalVelocity) - 9.81 * dt) * dt ≤
          terrainHeight M w.camPos.x w.camPos.z + 1.6 then
        ({ w.camPos with y := terrainHeight M w.camPos.x w.camPos.z + 1.6 }, 0, true)
      else
        ({ w.camPos with y := w.camPos.y +
            ((if w.keyDown (keyCode ' ') = true ∧ w.onGround = true then 5
              else w.verticalVelocity) - 9.81 * dt) * dt },
          (if w.keyDown (keyCode ' ') = true ∧ w.onGround = true then 5
            else w.verticalVelocity) - 9.81 * dt,
          if w.keyDown (keyCode ' ') = true ∧ w.onGround = true then false else w.onGround) := by
  unfold jumpGravity kinematics
  by_cases hj : w.keyDown (keyCode ' ') = true ∧ w.onGround = true
  · simp only [hj, and_self, if_true]
    split_ifs <;> rfl
  · simp only [hj, if_false]
    split_ifs <;> rfl

theorem cameraMovement_eq (dt : ℚ) (mod : Nat) (w : World) :
    cameraMovement dt mod w =
      { w with
        camPos :=
          (if w.keyDown (keyCode 'd') = true ∨ w.keyDown (keyCode 'D') = true then
            fun p => vecAdd p (vecScale w.camRight (w.moveSpeed * dt)) else fun p => p)
          ((if w.keyDown (keyCode 'a') = true ∨ w.keyDown (keyCode 'A') = true then
            fun p => vecSub p (vecScale w.camRight (w.moveSpeed * dt)) else fun p => p)
          ((if w.keyDown (keyCode 's') = true ∨ w.keyDown (keyCode 'S') = true then
            fun p => vecSub p (vecScale w.camFront (w.moveSpeed * dt)) else fun p => p)
          ((if w.keyDown (keyCode 'w') = true ∨ w.keyDown (keyCode 'W') = true then
            fun p => vecAdd p (vecScale w.camFront (w.moveSpeed * dt)) else fun p => p)
          w.camPos)))
        moveSpeed := if Nat.land mod GLUT_ACTIVE_SHIFT ≠ 0 then 9 else 5 } := by
  unfold cameraMovement
  simp only []
  by_cases hw : w.keyDown (keyCode 'w') = true ∨ w.keyDown (keyCode 'W') = true <;>
  by_cases hs : w.keyDown (keyCode 's') = true ∨ w.keyDown (keyCode 'S') = true <;>
  by_cases ha : w.keyDown (keyCode 'a') = true ∨ w.keyDown (keyCode 'A') = true <;>
  by_cases hd : w.keyDown (keyCode 'd') = true ∨ w.keyDown (keyCode 'D') = true <;>
  simp only [hw, hs, ha, hd, if_true, if_false]

theorem cameraMovement_keeps_jump (dt : ℚ) (mod : Nat) (w : World) :
    (cameraMovement dt mod w).keyDown = w.keyDown ∧
    (cameraMovement dt mod w).onGround = w.onGround ∧
    (cameraMovement dt mod w).verticalVelocity = w.verticalVelocity ∧
    (cameraMovement dt mod w).moveSpeed =
      (if Nat.land mod GLUT_ACTIVE_SHIFT ≠ 0 then 9 else 5) := by
  rw [cameraMovement_eq]
  exact ⟨rfl, rfl, rfl, rfl⟩

theorem simulate_kinematics (M : Platform) (t dt : ℚ) (mod : Nat) (w : World) :
    kinematics (simulate M t dt mod w) =
      kinematics (jumpGravity M dt (cameraMovement dt mod w)) := by
  rw [simulate_eq, (collisions_keeps M _).2, (respawnPass_keeps M dt _).2.2.1,
    (enemiesPass_keeps M t dt _).2.2]
  exact (reloadStep_keeps dt _).2.1

theorem frame_kinematics_live (M : Platform) (t dt : ℚ) (mod : Nat) (w : World)
    (h : w.gameOver = false) :
    kinematics (frame M t dt mod w) =
      kinematics (jumpGravity M dt (cameraMovement dt mod w)) := by
  rw [(frame_keeps M t dt mod w).2.2, if_pos h, simulate_kinematics]

theorem frame_controls_live (M : Platform) (t dt : ℚ) (mod : Nat) (w : World)
    (hg : w.gameOver = false) :
    (frame M t dt mod w).moveSpeed = (if Nat.land mod GLUT_ACTIVE_SHIFT ≠ 0 then 9 else 5) ∧
    (frame M t dt mod w).keyDown = w.keyDown := by
  obtain ⟨cf, cr, cu, df, jf, h⟩ := frame_frame M t dt mod w
  rw [if_pos hg] at h
  obtain ⟨a1, a2, a3, a4, a5, a6, a7, a8, h2⟩ := simulate_frame M t dt mod w
  obtain ⟨r, rt, bl, h3⟩ := reloadStep_frame dt (jumpGravity M dt (cameraMovement dt mod w))
  obtain ⟨p, v, g, h4⟩ := jumpGravity_frame M dt (cameraMovement dt mod w)
  obtain ⟨k1, _, _, k4⟩ := cameraMovement_keeps_jump dt mod w
  rw [h, h2, h3, h4]
  exact ⟨k4, k1⟩

theorem frame_horizontal (M : Platform) (t dt : ℚ) (mod : Nat) (w : World)
    (hg : w.gameOver = false) :
    (frame M t dt mod w).camPos.x = (cameraMovement dt mod w).camPos.x ∧
    (frame M t dt mod w).camPos.z = (cameraMovement dt mod w).camPos.z := by
  have hk := frame_kinematics_live M t dt mod w hg
  rw [jumpGravity_kinematics] at hk
  have hp : (frame M t dt mod w).camPos = _ := congrArg (fun v => v.1) hk
  rw [hp]
  by_cases hc : (cameraMovement dt mod w).camPos.y +
      ((if (cameraMovement dt mod w).keyDown (keyCode ' ') = true ∧
          (cameraMovement dt mod w).onGround = true then 5
        else (cameraMovement dt mod w).verticalVelocity) - 9.81 * dt) * dt ≤
      terrainHeight M (cameraMovement dt mod w).camPos.x (cameraMovement dt mod w).camPos.z + 1.6
  · rw [if_pos hc]
    exact ⟨rfl, rfl⟩
  · rw [if_neg hc]
    exact ⟨rfl, rfl⟩

theorem cameraMovement_single (dt : ℚ) (mod : Nat) (w : World) :
    ((w.keyDown (keyCode 'w') = true ∨ w.keyDown (keyCode 'W') = true) →
      (∀ c ∈ ['s', 'S', 'a', 'A', 'd', 'D'], w.keyDown (keyCode c) = false) →
      (cameraMovement dt mod w).camPos = vecAdd w.camPos (vecScale w.camFront (w.moveSpeed * dt))) ∧
    ((w.keyDown (keyCode 's') = true ∨ w.keyDown (keyCode 'S') = true) →
      (∀ c ∈ ['w', 'W', 'a', 'A', 'd', 'D'], w.keyDown (keyCode c) = false) →
      (cameraMovement dt mod w).camPos = vecSub w.camPos (vecScale w.camFront (w.moveSpeed * dt))) ∧
    ((w.keyDown (keyCode 'a') = true ∨ w.keyDown (keyCode 'A') = true) →
      (∀ c ∈ ['w', 'W', 's', 'S', 'd', 'D'], w.keyDown (keyCode c) = false) →
      (cameraMovement dt mod w).camPos = vecSub w.camPos (vecScale w.camRight (w.moveSpeed * dt))) ∧
    ((w.keyDown (keyCode 'd') = true ∨ w.keyDown (keyCode 'D') = true) →
      (∀ c ∈ ['w', 'W', 's', 'S', 'a', 'A'], w.keyDown (keyCode c) = false) →
      (cameraMovement dt mod w).camPos = vecAdd w.camPos (vecScale w.camRight (w.moveSpeed * dt))) := by
  have off : ∀ (l : List Char) (c C : Char), c ∈ l → C ∈ l →
      (∀ x ∈ l, w.keyDown (keyCode x) = false) →
      ¬(w.keyDown (keyCode c) = true ∨ w.keyDown (keyCode C) = true) := by
    intro l c C hc hC hall
    rw [hall c hc, hall C hC]
    simp
  refine ⟨?_, ?_, ?_, ?_⟩
  · intro hw hrest
    have hs := off _ 's' 'S' (by simp) (by simp) hrest
    have ha := off _ 'a' 'A' (by simp) (by simp) hrest
    have hd := off _ 'd' 'D' (by simp) (by simp) hrest
    rw [cameraMovement_eq]
    simp only [hw, hs, ha, hd, if_true, if_false]
  · intro hs hrest
    have hw := off _ 'w' 'W' (by simp) (by simp) hrest
    have ha := off _ 'a' 'A' (by simp) (by simp) hrest
    have hd := off _ 'd' 'D' (by simp) (by simp) hrest
    rw [cameraMovement_eq]
    simp only [hw, hs, ha, hd, if_true, if_false]
  · intro ha hrest
    have hw := off _ 'w' 'W' (by simp) (by simp) hrest
    have hs := off _ 's' 'S' (by simp) (by simp) hrest
    have hd := off _ 'd' 'D' (by simp) (by simp) hrest
    rw [cameraMovement_eq]
    simp only [hw, hs, ha, hd, if_true, if_false]
  · intro hd hrest
    have hw := off _ 'w' 'W' (by simp) (by simp) hrest
    have hs := off _ 's' 'S' (by simp) (by simp) hrest
    have ha := off _ 'a' 'A' (by simp) (by simp) hrest
    rw [cameraMovement_eq]
    simp only [hw, hs, ha, hd, if_true, if_false]

/-- C15, amended. In a frame that starts with the game not over and in which one
direction only is held, the player moves horizontally by the basis vector of that
direction (`camFront` for w, its opposite for s, `camRight` for d, its opposite for
a) times `moveSpeed * dt`, where `moveSpeed` is the value stored in the state before
the frame.  The run modifier read in this frame is only stored (9 if held, 5 if
not): it sets the speed of the next frame.  At start-up the stored speed is 5. -/
theorem movement_speed_is_stored_speed (M : Platform) (t dt : ℚ) (mod : Nat) (w : World)
    (hg : w.gameOver = false) :
    ((w.keyDown (keyCode 'w') = true ∨ w.keyDown (keyCode 'W') = true) →
      (∀ c ∈ ['s', 'S', 'a', 'A', 'd', 'D'], w.keyDown (keyCode c) = false) →
      (frame M t dt mod w).camPos.x = w.camPos.x + w.camFront.x * (w.moveSpeed * dt) ∧
      (frame M t dt mod w).camPos.z = w.camPos.z + w.camFront.z * (w.moveSpeed * dt)) ∧
    ((w.keyDown (keyCode 's') = true ∨ w.keyDown (keyCode 'S') = true) →
      (∀ c ∈ ['w', 'W', 'a', 'A', 'd', 'D'], w.keyDown (keyCode c) = false) →
      (frame M t dt mod w).camPos.x = w.camPos.x - w.camFront.x * (w.moveSpeed * dt) ∧
      (frame M t dt mod w).camPos.z = w.camPos.z - w.camFront.z * (w.moveSpeed * dt)) ∧
    ((w.keyDown (keyCode 'a') = true ∨ w.keyDown (keyCode 'A') = true) →
      (∀ c ∈ ['w', 'W', 's', 'S', 'd', 'D'], w.keyDown (keyCode c) = false) →
      (frame M t dt mod w).camPos.x = w.camPos.x - w.camRight.x * (w.moveSpeed * dt) ∧
      (frame M t dt mod w).camPos.z = w.camPos.z - w.camRight.z * (w.moveSpeed * dt)) ∧
    ((w.keyDown (keyCode 'd') = true ∨ w.keyDown (keyCode 'D') = true) →
      (∀ c ∈ ['w', 'W', 's', 'S', 'a', 'A'], w.keyDown (keyCode c) = false) →
      (frame M t dt mod w).camPos.x = w.camPos.x + w.camRight.x * (w.moveSpeed * dt) ∧
      (frame M t dt mod w).camPos.z = w.camPos.z + w.camRight.z * (w.moveSpeed * dt)) ∧
    (frame M t dt mod w).moveSpeed = (if Nat.land mod GLUT_ACTIVE_SHIFT ≠ 0 then 9 else 5) ∧
    (∀ (t2 dt2 : ℚ) (mod2 : Nat), (frame M t dt mod w).gameOver = false →
      (w.keyDown (keyCode 'w') = true ∨ w.keyDown (keyCode 'W') = true) →
      (∀ c ∈ ['s', 'S', 'a', 'A', 'd', 'D'], w.keyDown (keyCode c) = false) →
      (frame M t2 dt2 mod2 (frame M t dt mod w)).camPos.x =
        (frame M t dt mod w).camPos.x + (frame M t dt mod w).camFront.x *
          ((if Nat.land mod GLUT_ACTIVE_SHIFT ≠ 0 then 9 else 5) * dt2) ∧
      (frame M t2 dt2 mod2 (frame M t dt mod w)).camPos.z =
        (frame M t dt mod w).camPos.z + (frame M t dt mod w).camFront.z *
          ((if Nat.land mod GLUT_ACTIVE_SHIFT ≠ 0 then 9 else 5) * dt2)) ∧
    (∀ (seed seedAfterRocks : Nat) (t0 : ℚ), (boot M seed seedAfterRocks t0).moveSpeed = 5) := by
  have hfirst : ∀ (seed seed2 : Nat) (t0 : ℚ), (boot M seed seed2 t0).moveSpeed = 5 := by
    intro seed seed2 t0
    obtain ⟨cf, cr, cu, es, h⟩ := boot_frame M seed seed2 t0
    rw [h]
    rfl
  have key : ∀ (t1 d : ℚ) (m : Nat) (w0 : World), w0.gameOver = false →
      (w0.keyDown (keyCode 'w') = true ∨ w0.keyDown (keyCode 'W') = true) →
      (∀ c ∈ ['s', 'S', 'a', 'A', 'd', 'D'], w0.keyDown (keyCode c) = false) →
      (frame M t1 d m w0).camPos.x = w0.camPos.x + w0.camFront.x * (w0.moveSpeed * d) ∧
      (frame M t1 d m w0).camPos.z = w0.camPos.z + w0.camFront.z * (w0.moveSpeed * d) := by
    intro t1 d m w0 h0 hw hrest
    obtain ⟨hx, hz⟩ := frame_horizontal M t1 d m w0 h0
    rw [hx, hz, (cameraMovement_single d m w0).1 hw hrest]
    exact ⟨rfl, rfl⟩
  obtain ⟨hx, hz⟩ := frame_horizontal M t dt mod w hg
  obtain ⟨hms, hkd⟩ := frame_controls_live M t dt mod w hg
  refine ⟨key t dt mod w hg, ?_, ?_, ?_, hms, ?_, hfirst⟩
  · intro hs hrest
    rw [hx, hz, (cameraMovement_single dt mod w).2.1 hs hrest]
    exact ⟨rfl, rfl⟩
  · intro ha hrest
    rw [hx, hz, (cameraMovement_single dt mod w).2.2.1 ha hrest]
    exact ⟨rfl, rfl⟩
  · intro hd hrest
    rw [hx, hz, (cameraMovement_single dt mod w).2.2.2 hd hrest]
    exact ⟨rfl, rfl⟩
  · intro t2 dt2 mod2 hg2 hw hrest
    have h2 := key t2 dt2 mod2 (frame M t dt mod w) hg2 (by rw [hkd]; exact hw)
      (by rw [hkd]; exact hrest)
    rw [hms] at h2
    exact h2

theorem movement_speed_is_stored_speed_witness :
    walkWorld.gameOver = false ∧ walkWorld.moveSpeed = 5 ∧
    (display samplePlatform 10 1 walkWorld).camPos.z =
      walkWorld.camPos.z + walkWorld.camFront.z * (walkWorld.moveSpeed * (10 - 9.98)) ∧
    (display samplePlatform 10 1 walkWorld).moveSpeed = 9 :=
  have h := movement_speed_is_stored_speed samplePlatform 10
    (if walkWorld.lastTime = 0 then 0.016 else 10 - walkWorld.lastTime) 1
    { walkWorld with lastTime := 10 } (by decide!)
  have hz : (display samplePlatform 10 1 walkWorld).camPos.z = _ :=
    (h.1 (Or.inl (by decide!)) (by decide!)).2
  have hm : (display samplePlatform 10 1 walkWorld).moveSpeed = _ := h.2.2.2.2.1
  ⟨by decide!, by decide!, hz.trans (by decide!), hm.trans (by decide!)⟩

/-- C15, counterexample. In `walkWorld` only `w` is held, the stored speed is 5 and
the camera looks along -z; in the frame `display` runs at `t = 10` (`dt = 0.02`)
with the run modifier held, the player moves by `5 * 0.02` along -z, not by
`9 * 0.02`. -/
theorem movement_ignores_modifier_of_same_frame :
    walkWorld.gameOver = false ∧
    walkWorld.keyDown (keyCode 'w') = true ∧
    (∀ c ∈ ['W', 's', 'S', 'a', 'A', 'd', 'D'], walkWorld.keyDown (keyCode c) = false) ∧
    Nat.land 1 GLUT_ACTIVE_SHIFT ≠ 0 ∧
    walkWorld.camFront = { x := 0, y := 0, z := -1 } ∧
    (display samplePlatform 10 1 walkWorld).camPos.x - walkWorld.camPos.x = 0 ∧
    (display samplePlatform 10 1 walkWorld).camPos.z - walkWorld.camPos.z = -1 * (5 * 0.02) ∧
    (display samplePlatform 10 1 walkWorld).camPos.z - walkWorld.camPos.z ≠ -1 * (9 * 0.02) := by
  decide!

/-! enemies on the terrain -/

theorem enemyMove_pos (M : Platform) (dt : ℚ) (e : Enemy) (w : World) :
    (enemyMove M dt e w).1.pos =
      if M.randValue w.seed % 100 < 20 ∧
          |terrainHeight M (e.pos.x + e.dir.x * e.moveSpeed * dt * 0.8)
              (e.pos.z + e.dir.z * e.moveSpeed * dt * 0.8) + 1.6 - e.pos.y| < 1 then
        { x := e.pos.x + e.dir.x * e.moveSpeed * dt * 0.8
          y := terrainHeight M (e.pos.x + e.dir.x * e.moveSpeed * dt * 0.8)
              (e.pos.z + e.dir.z * e.moveSpeed * dt * 0.8) + 1.6
          z := e.pos.z + e.dir.z * e.moveSpeed * dt * 0.8 }
      else e.pos := by
  unfold enemyMove
  simp only [rand]
  by_cases h1 : M.randValue w.seed % 100 < 20
  · by_cases h2 : |terrainHeight M (e.pos.x + e.dir.x * e.moveSpeed * dt * 0.8)
        (e.pos.z + e.dir.z * e.moveSpeed * dt * 0.8) + 1.6 - e.pos.y| < 1
    · rw [if_pos h1, if_pos h2, if_pos ⟨h1, h2⟩]
    · rw [if_pos h1, if_neg h2, if_neg (fun h => h2 h.2)]
  · rw [if_neg h1, if_neg (fun h => h1 h.1)]

theorem enemyMove_rest (M : Platform) (dt : ℚ) (e : Enemy) (w : World) :
    (enemyMove M dt e w).1 = { e with pos := (enemyMove M dt e w).1.pos } := by
  unfold enemyMove
  simp only [rand]
  split_ifs <;> rfl

theorem enemyMove_synced (M : Platform) (dt : ℚ) (e : Enemy) (w : World)
    (h : terrainSynced M e) : terrainSynced M (enemyMove M dt e w).1 := by
  unfold terrainSynced
  rw [enemyMove_pos]
  split_ifs
  · rfl
  · exact h

theorem enemyUpdate_pos (M : Platform) (t dt : ℚ) (e : Enemy) (w : World)
    (h : ¬(e.active = false ∨ e.deathTimer > 0)) :
    (enemyTurn M t (enemySense M t dt w.camPos e) w).1.pos = e.pos ∧
    (enemyUpdate M t dt e w).1.pos =
      (enemyMove M dt (enemyTurn M t (enemySense M t dt w.camPos e) w).1
        (enemyTurn M t (enemySense M t dt w.camPos e) w).2).1.pos := by
  rw [enemyUpdate_alive M t dt e w h]
  exact ⟨((enemyTurn_keeps M t _ w).2.2.2).trans (enemySense_keeps M t dt w.camPos e).2.2.2,
    (enemyShoot_keeps M dt _ _).2.2.2⟩

theorem enemyUpdate_synced (M : Platform) (t dt : ℚ) (e : Enemy) (w : World)
    (h : terrainSynced M e) : terrainSynced M (enemyUpdate M t dt e w).1 := by
  by_cases hd : e.active = false ∨ e.deathTimer > 0
  · unfold enemyUpdate
    rw [if_pos hd]
    exact h
  · obtain ⟨h1, h2⟩ := enemyUpdate_pos M t dt e w hd
    have h3 : terrainSynced M (enemyTurn M t (enemySense M t dt w.camPos e) w).1 := by
      unfold terrainSynced
      rw [h1]
      exact h
    have h4 := enemyMove_synced M dt _ (enemyTurn M t (enemySense M t dt w.camPos e) w).2 h3
    unfold terrainSynced at h4 ⊢
    rw [h2]
    exact h4

theorem respawnEnemy_synced (M : Platform) (dt : ℚ) (e : Enemy) (w : World)
    (h : terrainSynced M e) : terrainSynced M (respawnEnemy M dt e w).1 := by
  unfold respawnEnemy terrainSynced
  simp only [rand]
  split_ifs
  · rfl
  · exact h
  · exact h

theorem hitEnemy_synced (M : Platform) (e : Enemy) (b : Bullet) (w : World)
    (h : terrainSynced M e) : terrainSynced M (hitEnemy M e b w).1 := by
  rw [hitEnemy_fst]
  unfold struck terrainSynced
  split_ifs <;> exact h

theorem initEnemy_synced (M : Platform) (e : Enemy) (w : World) :
    terrainSynced M (initEnemy M e w).1 := by
  unfold initEnemy terrainSynced
  simp only [rand]

theorem initEnemiesLoop_synced (M : Platform) (es : List Enemy) (w : World) :
    ∀ e ∈ (initEnemiesLoop M es w).1, terrainSynced M e := by
  induction es generalizing w with
  | nil => intro e he; cases he
  | cons e0 es ih =>
    rw [initEnemiesLoop_cons]
    intro e he
    rcases List.mem_cons.mp he with rfl | he
    · exact initEnemy_synced M e0 w
    · exact ih _ e he

theorem initEnemies_synced (M : Platform) (w : World) :
    ∀ e ∈ (initEnemies M w).enemies, terrainSynced M e :=
  initEnemiesLoop_synced M w.enemies w

theorem frame_synced (M : Platform) (t dt : ℚ) (mod : Nat) (w : World)
    (h : ∀ e ∈ w.enemies, terrainSynced M e) :
    ∀ e ∈ (frame M t dt mod w).enemies, terrainSynced M e := by
  rw [frame_enemies]
  split_ifs
  · exact simulate_all M t dt mod (terrainSynced M) (enemyUpdate_synced M t dt)
      (respawnEnemy_synced M dt) (hitEnemy_synced M) w h
  · exact h

theorem fireBullet_enemies (w : World) : (fireBullet w).enemies = w.enemies := by
  unfold fireBullet
  split_ifs
  · rfl
  · cases firstFreeBullet w.bullets <;> rfl

theorem event_enemies (M : Platform) (ev : Event) (w : World)
    (h : ∀ e ∈ w.enemies, terrainSynced M e) :
    ∀ e ∈ (ev.apply M w).enemies, terrainSynced M e := by
  cases ev with
  | display t mod => exact frame_synced M t _ mod _ h
  | passiveMouse x y =>
    have he : (passiveMouse M x y w).enemies = w.enemies := by
      unfold passiveMouse updateCameraVectors
      simp only []
      split_ifs <;> rfl
    show ∀ e ∈ (passiveMouse M x y w).enemies, terrainSynced M e
    rw [he]
    exact h
  | keyboardDown k =>
    have he : (keyboardDown k w).enemies = w.enemies := by
      unfold keyboardDown
      simp only []
      split_ifs <;> rfl
    show ∀ e ∈ (keyboardDown k w).enemies, terrainSynced M e
    rw [he]
    exact h
  | keyboardUp k => exact h
  | reshape width height => exact h
  | specialDown => exact h
  | mouseClick b st =>
    show ∀ e ∈ (mouseClick b st w).enemies, terrainSynced M e
    unfold mouseClick
    split_ifs
    · rw [fireBullet_enemies]
      exact h
    · exact h

theorem perform_synced (M : Platform) (acts : List Action) (w : World)
    (h : ∀ e ∈ w.enemies, terrainSynced M e) :
    ∀ e ∈ (perform M acts w).enemies, terrainSynced M e := by
  induction acts generalizing w with
  | nil => exact h
  | cons a acts ih =>
    apply ih
    cases a with
    | callback ev => exact event_enemies M ev w h
    | fire =>
      show ∀ e ∈ (fireBullet w).enemies, terrainSynced M e
      rw [fireBullet_enemies]
      exact h
    | frame t dt mod => exact frame_synced M t dt mod w h

theorem boot_synced (M : Platform) (seed seed2 : Nat) (t0 : ℚ) :
    ∀ e ∈ (boot M seed seed2 t0).enemies, terrainSynced M e :=
  initEnemies_synced M (updateCameraVectors M (initialGlobals seed))

theorem enemyTurn_moveSpeed (M : Platform) (t dt : ℚ) (c : Vec3) (e : Enemy) (w : World) :
    (enemyTurn M t (enemySense M t dt c e) w).1.moveSpeed = e.moveSpeed := by
  have h1 : (enemySense M t dt c e).moveSpeed = e.moveSpeed := by
    unfold enemySense
    simp only []
    split_ifs <;> rfl
  have h2 : ∀ e0 : Enemy, (enemyTurn M t e0 w).1.moveSpeed = e0.moveSpeed := by
    intro e0
    unfold enemyTurn
    simp only [rand]
    split_ifs <;> rfl
  rw [h2, h1]

/-- C16. Enemy movement is terrain-synced and slope-limited.  For an enemy standing
at eye height on the terrain, the movement step changes nothing but the position,
and the new position is `(nx, terrainHeight nx nz + 1.6, nz)` with
`nx = x + dir.x * moveSpeed * dt * 0.8`, `nz = z + dir.z * moveSpeed * dt * 0.8` when
the draw `rand() % 100 < 20` selects a move and
`|terrainHeight nx nz - terrainHeight x z| < 1`, and the old position otherwise.  In
the update of an alive enemy the position changes only through that step.  Every
enemy stands at eye height on the terrain after `initEnemies`, after the movement
step, after a respawn, and in every state the program reaches from start-up. -/
theorem enemy_movement_terrain_synced (M : Platform) :
    (∀ (dt : ℚ) (e : Enemy) (w : World), terrainSynced M e →
      (enemyMove M dt e w).1 = { e with pos := (enemyMove M dt e w).1.pos } ∧
      (enemyMove M dt e w).1.pos =
        (if M.randValue w.seed % 100 < 20 ∧
            |terrainHeight M (e.pos.x + e.dir.x * e.moveSpeed * dt * 0.8)
                (e.pos.z + e.dir.z * e.moveSpeed * dt * 0.8) -
              terrainHeight M e.pos.x e.pos.z| < 1 then
          { x := e.pos.x + e.dir.x * e.moveSpeed * dt * 0.8
            y := terrainHeight M (e.pos.x + e.dir.x * e.moveSpeed * dt * 0.8)
                (e.pos.z + e.dir.z * e.moveSpeed * dt * 0.8) + 1.6
            z := e.pos.z + e.dir.z * e.moveSpeed * dt * 0.8 }
        else e.pos) ∧
      terrainSynced M (enemyMove M dt e w).1) ∧
    (∀ (t dt : ℚ) (e : Enemy) (w : World), ¬(e.active = false ∨ e.deathTimer > 0) →
      ∃ (e2 : Enemy) (w2 : World), e2.pos = e.pos ∧ e2.moveSpeed = e.moveSpeed ∧
        (enemyUpdate M t dt e w).1.pos = (enemyMove M dt e2 w2).1.pos) ∧
    (∀ w : World, ∀ e ∈ (initEnemies M w).enemies, terrainSynced M e) ∧
    (∀ (dt : ℚ) (e : Enemy) (w : World), 0 < e.deathTimer → e.deathTimer ≤ dt →
      terrainSynced M (respawnEnemy M dt e w).1) ∧
    (∀ (seed seedAfterRocks : Nat) (t0 : ℚ) (acts : List Action),
      ∀ e ∈ (perform M acts (boot M seed seedAfterRocks t0)).enemies, terrainSynced M e) := by
  refine ⟨?_, ?_, initEnemies_synced M, ?_, ?_⟩
  · intro dt e w h
    refine ⟨enemyMove_rest M dt e w, ?_, enemyMove_synced M dt e w h⟩
    rw [enemyMove_pos]
    have hy : e.pos.y = terrainHeight M e.pos.x e.pos.z + 1.6 := h
    have hd : terrainHeight M (e.pos.x + e.dir.x * e.moveSpeed * dt * 0.8)
          (e.pos.z + e.dir.z * e.moveSpeed * dt * 0.8) + 1.6 - e.pos.y =
        terrainHeight M (e.pos.x + e.dir.x * e.moveSpeed * dt * 0.8)
          (e.pos.z + e.dir.z * e.moveSpeed * dt * 0.8) - terrainHeight M e.pos.x e.pos.z := by
      rw [hy]
      ring
    rw [hd]
  · intro t dt e w h
    obtain ⟨h1, h2⟩ := enemyUpdate_pos M t dt e w h
    exact ⟨_, _, h1, enemyTurn_moveSpeed M t dt w.camPos e w, h2⟩
  · intro dt e w hd hdt
    exact (respawnEnemy_expired M dt e w hd hdt).2.2.2.1
  · intro seed seed2 t0 acts
    exact perform_synced M acts _ (boot_synced M seed seed2 t0)

theorem enemy_movement_terrain_synced_witness :
    terrainSynced movingPlatform groundedEnemy ∧
    (enemyMove movingPlatform 0.5 groundedEnemy reloadWorld).1.pos.x = 0.32 ∧
    terrainSynced movingPlatform (enemyMove movingPlatform 0.5 groundedEnemy reloadWorld).1 :=
  have hs : terrainSynced movingPlatform groundedEnemy := by
    unfold terrainSynced
    decide!
  have h := (enemy_movement_terrain_synced movingPlatform).1 0.5 groundedEnemy reloadWorld hs
  ⟨hs, (congrArg (fun p => p.x) h.2.1).trans (by decide!), h.2.2⟩

end FPS
